import Mathlib

/-!
# QgsVectorLayerProfileGenerator

A shallow embedding of `src/core/vector/qgsvectorlayerprofilegenerator.cpp`.

* A C++ `double` is an exact rational or NaN (`none`); arithmetic and comparisons
  propagate NaN the way IEEE arithmetic does.
* The cancellation flag of `QgsFeedback` is an oracle over the index of the poll:
  `canceled k` is what the `k`-th call of `isCanceled()` observes.  The run state
  carries the number of polls made so far.
* Library code that is not part of the translated file (the geometry engine, the
  tessellator, coordinate transforms, the feature source, the terrain provider) is
  a record of functions the run is given.
* A dereferenced null pointer ends the run with a `Fault`.
-/

namespace QgsProfile

/-! ## Doubles -/

/-- A C++ double: an exact rational value, or NaN. -/
abbrev Dbl := Option ℚ

/-- The value of `std::numeric_limits<double>::quiet_NaN()`. -/
def quietNaN : Dbl := none

/-- The test `std::isnan`. -/
def isnan (a : Dbl) : Bool := a.isNone

/-- Addition of doubles: NaN when either operand is NaN.  The sum of two numbers is the
exact rational sum: rounding, absorption of a small operand, overflow and infinities
are not modelled. -/
def Dbl.add (a b : Dbl) : Dbl :=
  match a, b with
  | some x, some y => some (x + y)
  | _, _ => none

/-- Multiplication of doubles: NaN when either operand is NaN. -/
def Dbl.mul (a b : Dbl) : Dbl :=
  match a, b with
  | some x, some y => some (x * y)
  | _, _ => none

/-- The comparison `a < b` of doubles: false when either operand is NaN. -/
def Dbl.lt (a b : Dbl) : Bool :=
  match a, b with
  | some x, some y => decide (x < y)
  | _, _ => false

/-- The function `std::min(a, b)`, which is `(b < a) ? b : a`. -/
def stdMin (a b : Dbl) : Dbl := if Dbl.lt b a then b else a

/-- The function `std::max(a, b)`, which is `(a < b) ? b : a`. -/
def stdMax (a b : Dbl) : Dbl := if Dbl.lt a b then b else a

/-! ## Enumerations -/

/-- The enumeration `Qgis::AltitudeClamping`. -/
inductive AltitudeClamping where
  | Absolute
  | Relative
  | Terrain
  deriving DecidableEq, Repr

/-- The enumeration `Qgis::AltitudeBinding`. -/
inductive AltitudeBinding where
  | Vertex
  | Centroid
  deriving DecidableEq, Repr

/-- The enumeration `QgsWkbTypes::GeometryType`. -/
inductive GeometryType where
  | PointGeometry
  | LineGeometry
  | PolygonGeometry
  | UnknownGeometry
  | NullGeometry
  deriving DecidableEq, Repr

/-- The ways a run can crash instead of returning. -/
inductive Fault where
  | nullDereference
  deriving DecidableEq, Repr

/-- The exception `QgsCsException` thrown by a failing coordinate transform. -/
structure QgsCsException where
  what : String
  deriving DecidableEq, Repr

/-! ## Geometry -/

/-- A `QgsPoint`; `z` is NaN for a point without Z. -/
structure QgsPoint where
  x : Dbl
  y : Dbl
  z : Dbl
  deriving DecidableEq, Repr

/-- The default-constructed `QgsPoint()`: all coordinates NaN. -/
def QgsPoint.empty : QgsPoint := ⟨quietNaN, quietNaN, quietNaN⟩

/-- The two-argument constructor `QgsPoint( x, y )`, a point without Z. -/
def QgsPoint.xy (x y : Dbl) : QgsPoint := ⟨x, y, quietNaN⟩

/-- The vertex list of a `QgsLineString`. -/
abbrev QgsLineString := List QgsPoint

/-- The dynamic type of a `QgsCurve`, as far as `qgsgeometry_cast` tells. -/
inductive CurveKind where
  | LineString
  | CircularString
  | CompoundCurve
  deriving DecidableEq, Repr

/-- A `QgsCurve`: its dynamic type and its vertices. -/
structure QgsCurve where
  kind : CurveKind
  points : List QgsPoint
  deriving DecidableEq, Repr

/-- The result of `qgsgeometry_cast<QgsLineString *>( curve )` on a possibly null
pointer: the vertex list when the curve is a line string, null otherwise. -/
def castLineString (curve : Option QgsCurve) : Option QgsLineString :=
  match curve with
  | some c => if c.kind = CurveKind.LineString then some c.points else none
  | none => none

/-- A `QgsPolygon`: the exterior ring (null for an empty polygon) and the interior rings. -/
structure QgsPolygon where
  is3D : Bool
  exteriorRing : Option QgsCurve
  interiorRings : List QgsCurve
  deriving DecidableEq, Repr

/-- A `QgsCurvePolygon` as the polygon builder receives it:
either a `QgsPolygon` or a polygon of another (curved) subtype. -/
inductive QgsCurvePolygon where
  | polygon (p : QgsPolygon)
  | curved (rings : QgsPolygon)
  deriving DecidableEq, Repr

/-- A triangle of the tessellation: the first three vertices of its exterior ring. -/
structure Triangle where
  p1 : QgsPoint
  p2 : QgsPoint
  p3 : QgsPoint
  deriving DecidableEq, Repr

/-- A member of a geometry collection. -/
inductive GeometryPart where
  | point (p : QgsPoint)
  | lineString (l : QgsLineString)
  deriving DecidableEq, Repr

/-- The geometries the run builds and the geometry engine returns. -/
inductive QgsAbstractGeometry where
  | point (p : QgsPoint)
  | lineString (l : QgsLineString)
  | polygon (exterior : QgsLineString)
  | multiPoint (ps : List QgsPoint)
  | multiLineString (ls : List QgsLineString)
  | multiPolygon (ps : List QgsLineString)
  | geometryCollection (parts : List GeometryPart)
  deriving DecidableEq, Repr

/-- A `QgsGeometry`: a possibly null pointer to an abstract geometry. -/
abbrev QgsGeometry := Option QgsAbstractGeometry

/-- The function `QgsWkbTypes::geometryType( geometry->wkbType() )`. -/
def QgsAbstractGeometry.geometryType : QgsAbstractGeometry → GeometryType
  | .point _ => .PointGeometry
  | .multiPoint _ => .PointGeometry
  | .lineString _ => .LineGeometry
  | .multiLineString _ => .LineGeometry
  | .polygon _ => .PolygonGeometry
  | .multiPolygon _ => .PolygonGeometry
  | .geometryCollection _ => .UnknownGeometry

/-- The method `QgsGeometry::type()`. -/
def QgsGeometry.type (g : QgsGeometry) : GeometryType :=
  match g with
  | some a => a.geometryType
  | none => .NullGeometry

/-- The parts visited by `const_parts_begin() .. const_parts_end()`:
the members of a collection, or the geometry itself. -/
def QgsAbstractGeometry.parts : QgsAbstractGeometry → List QgsAbstractGeometry
  | .point p => [.point p]
  | .lineString l => [.lineString l]
  | .polygon e => [.polygon e]
  | .multiPoint ps => ps.map .point
  | .multiLineString ls => ls.map .lineString
  | .multiPolygon ps => ps.map .polygon
  | .geometryCollection parts =>
      parts.map (fun part =>
        match part with
        | .point p => QgsAbstractGeometry.point p
        | .lineString l => QgsAbstractGeometry.lineString l)

/-- A `QgsRectangle`. -/
structure QgsRectangle where
  xMinimum : Dbl
  yMinimum : Dbl
  xMaximum : Dbl
  yMaximum : Dbl
  deriving DecidableEq, Repr

/-! ## Features -/

/-- The geometry of a feature of a point layer. -/
inductive PointFeature where
  | single (p : QgsPoint)
  | multi (parts : List QgsPoint)
  deriving DecidableEq, Repr

/-- The geometry of a feature of a line layer. -/
inductive LineFeature where
  | single (c : QgsCurve)
  | multi (parts : List QgsCurve)
  deriving DecidableEq, Repr

/-- The geometry of a feature of a polygon layer. -/
inductive PolygonFeature where
  | single (p : QgsCurvePolygon)
  | multi (parts : List QgsCurvePolygon)
  deriving DecidableEq, Repr

/-- The two feature requests the builders issue. -/
inductive QgsFeatureRequest where
  | distanceWithin (curve : QgsCurve) (tolerance : Dbl)
  | filterRect (rect : QgsRectangle)
  deriving DecidableEq, Repr

/-- The feature source `mSource`: the features it delivers for a request. -/
structure QgsVectorLayerFeatureSource where
  pointFeatures : QgsFeatureRequest → List PointFeature
  lineFeatures : QgsFeatureRequest → List LineFeature
  polygonFeatures : QgsFeatureRequest → List PolygonFeature

/-! ## External collaborators -/

/-- The feedback object `mFeedback`: what the `k`-th poll of `isCanceled()` observes. -/
structure QgsFeedback where
  canceled : Nat → Bool

/-- A terrain provider. -/
structure QgsAbstractTerrainProvider where
  crs : String
  heightAt : Dbl → Dbl → Dbl

/-- A `QgsCoordinateTransform`; both operations may throw `QgsCsException`. -/
structure QgsCoordinateTransform where
  transformInPlace : Dbl → Dbl → Except QgsCsException (Dbl × Dbl)
  transformCurveReverse : QgsCurve → Except QgsCsException QgsCurve

/-- The default-constructed (invalid) transform, which changes nothing. -/
def QgsCoordinateTransform.identity : QgsCoordinateTransform :=
  ⟨fun x y => .ok (x, y), fun c => .ok c⟩

/-- What `QgsGeos::lineLocatePoint` gives: the returned distance and the error
message it may have set. -/
structure LocateResult where
  distance : Dbl
  error : Option String
  deriving DecidableEq, Repr

/-- The geometries handed to the profile-curve engine. -/
inductive EngineInput where
  | lineFeature (f : LineFeature)
  | curve (c : QgsCurve)
  | polygonFeature (f : PolygonFeature)
  | curvePolygon (p : QgsCurvePolygon)
  | triangle (t : Triangle)
  deriving DecidableEq, Repr

/-- A prepared `QgsGeos` engine over one curve. -/
structure QgsGeos where
  intersects : EngineInput → Bool
  intersection : EngineInput → Option QgsAbstractGeometry
  lineLocatePoint : QgsPoint → LocateResult

/-- The library functions the run calls. -/
structure Externals where
  coordinateTransform : String → String → QgsCoordinateTransform
  boundingBox : QgsCurve → QgsRectangle
  rectIntersects : QgsRectangle → QgsRectangle → Bool
  geos : QgsCurve → QgsGeos
  interpolatePoint : QgsCurve → Dbl → Option QgsPoint
  centroid : QgsPolygon → QgsPoint
  tessellate : QgsPolygon → List Triangle
  interpolateFromVerticesData : QgsPoint → QgsPoint → QgsPoint → Dbl → Dbl → Dbl → Dbl → Dbl → Dbl
  unaryUnion : List QgsGeometry → QgsGeometry
  mergeLines : QgsGeometry → QgsGeometry
  numericLimitsMax : Dbl
  numericLimitsLowest : Dbl

/-! ## Results -/

/-- A `QMap<double, double>`: entries in ascending key order. -/
abbrev QMap := List (Dbl × Dbl)

/-- The method `QMap::insert`: walks to the first entry whose key is not less than
`k`; replaces its value when `k` is not less than that key either, and puts a new
entry before it otherwise. -/
def QMap.insert (k v : Dbl) : QMap → QMap
  | [] => [(k, v)]
  | (k0, v0) :: rest =>
      if Dbl.lt k0 k then (k0, v0) :: QMap.insert k v rest
      else if Dbl.lt k k0 then (k, v) :: (k0, v0) :: rest
      else (k0, v) :: rest

/-- The results aggregate `QgsVectorLayerProfileResults` (symbols left out). -/
structure QgsVectorLayerProfileResults where
  rawPoints : List QgsPoint
  mDistanceToHeightMap : QMap
  geometries : List QgsGeometry
  distanceVHeightGeometries : List QgsGeometry
  minZ : Dbl
  maxZ : Dbl
  deriving DecidableEq, Repr

/-! ## The generator -/

/-- The members of `QgsVectorLayerProfileGenerator`, with the number of polls of the
cancellation flag made so far and the feature requests issued so far. -/
structure Generator where
  mFeedback : QgsFeedback
  mProfileCurve : Option QgsCurve
  mTerrainProvider : Option QgsAbstractTerrainProvider
  mTolerance : Dbl
  mSourceCrs : String
  mTargetCrs : String
  mExtent : QgsRectangle
  mSource : QgsVectorLayerFeatureSource
  mOffset : Dbl
  mScale : Dbl
  mClamping : AltitudeClamping
  mBinding : AltitudeBinding
  mExtrusionEnabled : Bool
  mExtrusionHeight : Dbl
  mWkbType : GeometryType
  mTransformedCurve : Option QgsCurve
  mLayerToTargetTransform : QgsCoordinateTransform
  mTargetToTerrainProviderTransform : QgsCoordinateTransform
  mProfileCurveEngine : Option QgsGeos
  mResults : Option QgsVectorLayerProfileResults
  polls : Nat
  requests : List QgsFeatureRequest

/-- The method `terrainHeight( x, y )`. -/
def terrainHeight (g : Generator) (x y : Dbl) : Dbl :=
  match g.mTerrainProvider with
  | none => quietNaN
  | some provider =>
      match g.mTargetToTerrainProviderTransform.transformInPlace x y with
      | .error _ => quietNaN
      | .ok (tx, ty) => provider.heightAt tx ty

/-- The method `featureZToHeight( x, y, z )`. -/
def featureZToHeight (g : Generator) (x y z : Dbl) : Dbl :=
  let z1 : Dbl :=
    match g.mClamping with
    | .Absolute => z
    | .Relative | .Terrain =>
        let terrainZ := terrainHeight g x y
        if !isnan terrainZ then
          match g.mClamping with
          | .Relative => if isnan z then terrainZ else Dbl.add z terrainZ
          | .Terrain => terrainZ
          | .Absolute => z
        else z
  Dbl.add (Dbl.mul z1 g.mScale) g.mOffset

/-- The Z that one iteration of the loop of `clampAltitudes( lineString, centroid )`
writes to the vertex `p`. -/
def clampedVertexZ (g : Generator) (centroid p : QgsPoint) : Dbl :=
  let terrainZ : Dbl :=
    match g.mClamping with
    | .Relative | .Terrain =>
        let pt : Dbl × Dbl :=
          match g.mBinding with
          | .Vertex => (p.x, p.y)
          | .Centroid => (centroid.x, centroid.y)
        terrainHeight g pt.1 pt.2
    | .Absolute => some 0
  let geomZ : Dbl :=
    match g.mClamping with
    | .Absolute | .Relative => p.z
    | .Terrain => some 0
  Dbl.add (Dbl.mul (Dbl.add terrainZ geomZ) g.mScale) g.mOffset

/-- The method `clampAltitudes( lineString, centroid )`: the loop over the vertices,
from poll number `polls` on.  Gives the line string as rewritten and the number of
polls made. A poll that observes cancellation leaves the remaining vertices as
they are. -/
def clampAltitudesLineString (g : Generator) (centroid : QgsPoint) :
    QgsLineString → Nat → QgsLineString × Nat
  | [], polls => ([], polls)
  | p :: rest, polls =>
      if g.mFeedback.canceled polls then (p :: rest, polls + 1)
      else
        let r := clampAltitudesLineString g centroid rest (polls + 1)
        ({ p with z := clampedVertexZ g centroid p } :: r.1, r.2)

/-- Modelled from the spec: `QgsPolygon::addZValue` is library code outside the
translated file; the spec has the clamp step "ensure the polygon is 3D (adds Z=0 if
not)". Every ring vertex gets the given Z. -/
def QgsPolygon.addZValue (polygon : QgsPolygon) (zValue : Dbl) : QgsPolygon :=
  let setZ : QgsCurve → QgsCurve :=
    fun c => { c with points := c.points.map (fun p => { p with z := zValue }) }
  { is3D := true
    exteriorRing := polygon.exteriorRing.map setZ
    interiorRings := polygon.interiorRings.map setZ }

/-- The loop over the interior rings in `clampAltitudes( polygon )`, from poll
number `polls` on: the value the method returns once the loop is left, the rings as
rewritten, and the number of polls made. -/
def clampInteriorRings (g : Generator) (centroid : QgsPoint) :
    List QgsCurve → Nat → Bool × List QgsCurve × Nat
  | [], polls => (true, [], polls)
  | curve :: rest, polls =>
      if g.mFeedback.canceled polls then (true, curve :: rest, polls + 1)
      else
        match castLineString (some curve) with
        | none => (false, curve :: rest, polls + 1)
        | some lineString =>
            let c := clampAltitudesLineString g centroid lineString (polls + 1)
            let r := clampInteriorRings g centroid rest c.2
            (r.1, { curve with points := c.1 } :: r.2.1, r.2.2)

/-- The method `clampAltitudes( polygon )`: the returned flag, the polygon as
rewritten in place, and the number of polls made. -/
def clampAltitudesPolygon (ext : Externals) (g : Generator) (polygon0 : QgsPolygon)
    (polls : Nat) : Bool × QgsPolygon × Nat :=
  let polygon : QgsPolygon :=
    if !polygon0.is3D then polygon0.addZValue (some 0) else polygon0
  let centroid : QgsPoint :=
    match g.mBinding with
    | .Vertex => QgsPoint.empty
    | .Centroid => ext.centroid polygon
  match castLineString polygon.exteriorRing with
  | none => (false, polygon, polls)
  | some lineString =>
      let c := clampAltitudesLineString g centroid lineString polls
      let polygon1 : QgsPolygon :=
        { polygon with exteriorRing := some ⟨CurveKind.LineString, c.1⟩ }
      let r := clampInteriorRings g centroid polygon1.interiorRings c.2
      (r.1, { polygon1 with interiorRings := r.2.1 }, r.2.2)

/-! ## The builders -/

/-- The part of the generator the builders change: polls made, feature requests
issued, and the results aggregate `*mResults`. -/
structure RunState where
  polls : Nat
  requests : List QgsFeatureRequest
  results : QgsVectorLayerProfileResults
  deriving DecidableEq, Repr

/-- One call of `mFeedback->isCanceled()`: what the poll observes, and the state
with the poll counted. -/
def isCanceled (g : Generator) (s : RunState) : Bool × RunState :=
  (g.mFeedback.canceled s.polls, { s with polls := s.polls + 1 })

/-- The lambda `processPoint` of `generateProfileForPoints`. -/
def processPoint (g : Generator) (engine : QgsGeos) (point : QgsPoint)
    (r : QgsVectorLayerProfileResults) : QgsVectorLayerProfileResults :=
  let height := featureZToHeight g point.x point.y point.z
  let r1 := { r with rawPoints := r.rawPoints ++ [QgsPoint.mk point.x point.y height] }
  let r2 := { r1 with minZ := stdMin r1.minZ height }
  let r3 := { r2 with maxZ := stdMax r2.maxZ height }
  let distance := (engine.lineLocatePoint point).distance
  let r4 := { r3 with mDistanceToHeightMap := QMap.insert distance height r3.mDistanceToHeightMap }
  if g.mExtrusionEnabled then
    let r5 := { r4 with geometries := r4.geometries ++
      [some (QgsAbstractGeometry.lineString [QgsPoint.mk point.x point.y height,
                          QgsPoint.mk point.x point.y (Dbl.add height g.mExtrusionHeight)])] }
    let r6 := { r5 with distanceVHeightGeometries := r5.distanceVHeightGeometries ++
      [some (QgsAbstractGeometry.lineString [QgsPoint.xy distance height,
                          QgsPoint.xy distance (Dbl.add height g.mExtrusionHeight)])] }
    let r7 := { r6 with minZ := stdMin r6.minZ (Dbl.add height g.mExtrusionHeight) }
    { r7 with maxZ := stdMax r7.maxZ (Dbl.add height g.mExtrusionHeight) }
  else
    let r5 := { r4 with geometries := r4.geometries ++ [some (QgsAbstractGeometry.point (QgsPoint.mk point.x point.y height))] }
    { r5 with distanceVHeightGeometries := r5.distanceVHeightGeometries ++
      [some (QgsAbstractGeometry.point (QgsPoint.xy distance height))] }

/-- The parts of a point feature that the loop body hands to `processPoint`. -/
def PointFeature.points : PointFeature → List QgsPoint
  | .single p => [p]
  | .multi parts => parts

/-- The `while ( it.nextFeature( feature ) )` loop of `generateProfileForPoints`. -/
def pointFeatureLoop (g : Generator) (engine : QgsGeos) :
    List PointFeature → RunState → Bool × RunState
  | [], s => (true, s)
  | feature :: rest, s =>
      if (isCanceled g s).1 then (false, (isCanceled g s).2)
      else
        let s1 := (isCanceled g s).2
        let r :=
          match feature with
          | .multi parts => parts.foldl (fun acc p => processPoint g engine p acc) s1.results
          | .single p => processPoint g engine p s1.results
        pointFeatureLoop g engine rest { s1 with results := r }

/-- The method `generateProfileForPoints()`. -/
def generateProfileForPoints (g : Generator) (profileCurve : QgsCurve) (engine : QgsGeos)
    (s : RunState) : Bool × RunState :=
  let request := QgsFeatureRequest.distanceWithin profileCurve g.mTolerance
  let features := g.mSource.pointFeatures request
  pointFeatureLoop g engine features { s with requests := s.requests ++ [request] }

/-- The loop over the parts of the intersection in the lambda `processCurve`. -/
def processCurveParts (ext : Externals) (g : Generator) (engine : QgsGeos)
    (curve : QgsCurve) (curveGeos : QgsGeos) :
    List QgsAbstractGeometry → RunState → Except Fault RunState
  | [], s => .ok s
  | part :: rest, s =>
      if (isCanceled g s).1 then .ok (isCanceled g s).2
      else
        let s1 := (isCanceled g s).2
        match part with
        | .point intersectionPoint =>
            let distance := (curveGeos.lineLocatePoint intersectionPoint).distance
            match ext.interpolatePoint curve distance with
            | none => .error Fault.nullDereference
            | some interpolatedPoint =>
                let height := featureZToHeight g interpolatedPoint.x interpolatedPoint.y interpolatedPoint.z
                let r := s1.results
                let r1 := { r with rawPoints := r.rawPoints ++
                  [QgsPoint.mk interpolatedPoint.x interpolatedPoint.y height] }
                let r2 := { r1 with minZ := stdMin r1.minZ height }
                let r3 := { r2 with maxZ := stdMax r2.maxZ height }
                let distanceAlongProfileCurve := (engine.lineLocatePoint interpolatedPoint).distance
                let r4 := { r3 with
                  mDistanceToHeightMap := QMap.insert distanceAlongProfileCurve height r3.mDistanceToHeightMap }
                let r8 :=
                  if g.mExtrusionEnabled then
                    let r5 := { r4 with geometries := r4.geometries ++
                      [some (QgsAbstractGeometry.lineString [QgsPoint.mk interpolatedPoint.x interpolatedPoint.y height,
                        QgsPoint.mk interpolatedPoint.x interpolatedPoint.y (Dbl.add height g.mExtrusionHeight)])] }
                    let r6 := { r5 with distanceVHeightGeometries := r5.distanceVHeightGeometries ++
                      [some (QgsAbstractGeometry.lineString [QgsPoint.xy distanceAlongProfileCurve height,
                        QgsPoint.xy distanceAlongProfileCurve (Dbl.add height g.mExtrusionHeight)])] }
                    let r7 := { r6 with minZ := stdMin r6.minZ (Dbl.add height g.mExtrusionHeight) }
                    { r7 with maxZ := stdMax r7.maxZ (Dbl.add height g.mExtrusionHeight) }
                  else
                    let r5 := { r4 with geometries := r4.geometries ++
                      [some (QgsAbstractGeometry.point (QgsPoint.mk interpolatedPoint.x interpolatedPoint.y height))] }
                    { r5 with distanceVHeightGeometries := r5.distanceVHeightGeometries ++
                      [some (QgsAbstractGeometry.point (QgsPoint.xy distanceAlongProfileCurve height))] }
                processCurveParts ext g engine curve curveGeos rest { s1 with results := r8 }
        | _ => processCurveParts ext g engine curve curveGeos rest s1

/-- The lambda `processCurve` of `generateProfileForLines`. -/
def processCurve (ext : Externals) (g : Generator) (engine : QgsGeos) (curve : QgsCurve)
    (s : RunState) : Except Fault RunState :=
  match engine.intersection (.curve curve) with
  | none => .ok s
  | some intersection =>
      if (isCanceled g s).1 then .ok (isCanceled g s).2
      else
        let s1 := (isCanceled g s).2
        let curveGeos := ext.geos curve
        if (isCanceled g s1).1 then .ok (isCanceled g s1).2
        else
          let s2 := (isCanceled g s1).2
          processCurveParts ext g engine curve curveGeos intersection.parts s2

/-- The loop over the parts of a multi-part line feature. -/
def lineFeatureParts (ext : Externals) (g : Generator) (engine : QgsGeos) :
    List QgsCurve → RunState → Except Fault RunState
  | [], s => .ok s
  | part :: rest, s =>
      if !engine.intersects (.curve part) then lineFeatureParts ext g engine rest s
      else
        match processCurve ext g engine part s with
        | .error e => .error e
        | .ok s1 => lineFeatureParts ext g engine rest s1

/-- The `while ( it.nextFeature( feature ) )` loop of `generateProfileForLines`. -/
def lineFeatureLoop (ext : Externals) (g : Generator) (engine : QgsGeos) :
    List LineFeature → RunState → Except Fault (Bool × RunState)
  | [], s => .ok (true, s)
  | feature :: rest, s =>
      if (isCanceled g s).1 then .ok (false, (isCanceled g s).2)
      else
        let s1 := (isCanceled g s).2
        if !engine.intersects (.lineFeature feature) then lineFeatureLoop ext g engine rest s1
        else
          let processed :=
            match feature with
            | .multi parts => lineFeatureParts ext g engine parts s1
            | .single c => processCurve ext g engine c s1
          match processed with
          | .error e => .error e
          | .ok s2 => lineFeatureLoop ext g engine rest s2

/-- The method `generateProfileForLines()`. -/
def generateProfileForLines (ext : Externals) (g : Generator) (profileCurve : QgsCurve)
    (engine : QgsGeos) (s : RunState) : Except Fault (Bool × RunState) :=
  let request := QgsFeatureRequest.filterRect (ext.boundingBox profileCurve)
  let features := g.mSource.lineFeatures request
  lineFeatureLoop ext g engine features { s with requests := s.requests ++ [request] }

/-- The lambda `interpolatePointOnTriangle` of `generateProfileForPolygons`. -/
def interpolatePointOnTriangle (ext : Externals) (triangle : Triangle) (x y : Dbl) : QgsPoint :=
  let p1 := triangle.p1
  let p2 := triangle.p2
  let p3 := triangle.p3
  let z := ext.interpolateFromVerticesData p1 p2 p3 p1.z p2.z p3.z x y
  QgsPoint.mk x y z

/-- The constructor `QgsLineString( x, y, z )` from coordinate vectors. -/
def QgsLineString.fromXYZ (xs ys zs : List Dbl) : QgsLineString :=
  List.zipWith3 QgsPoint.mk xs ys zs

/-- The constructor `QgsLineString( x, y )` from coordinate vectors, without Z. -/
def QgsLineString.fromXY (xs ys : List Dbl) : QgsLineString :=
  List.zipWith QgsPoint.xy xs ys

/-- Modelled from the spec: `QgsLineString::reversed` is library code outside the
translated file; "reverse the extruded line". -/
def QgsLineString.reversed (l : QgsLineString) : QgsLineString := l.reverse

/-- Modelled from the spec: `QgsLineString::append` is library code outside the
translated file; "pairing the base line with its vertically-extruded mirror": the
vertices of the other line follow those of this one. -/
def QgsLineString.append (l other : QgsLineString) : QgsLineString := l ++ other

/-- Modelled from the spec: `QgsLineString::close` is library code outside the
translated file; "close the ring": the start vertex is added at the end unless the
line is empty or ends where it starts. -/
def QgsLineString.close (l : QgsLineString) : QgsLineString :=
  match l.head?, l.getLast? with
  | some first, some last => if first = last then l else l ++ [first]
  | _, _ => l

/-- The branch of `processTriangleLineIntersect` for an intersection that is a `QgsPoint`. -/
def triangleIntersectPoint (ext : Externals) (g : Generator) (engine : QgsGeos)
    (triangle : Triangle) (p : QgsPoint)
    (acc : QgsVectorLayerProfileResults × List QgsGeometry) :
    QgsVectorLayerProfileResults × List QgsGeometry :=
  let r := acc.1
  let transformedParts := acc.2
  let interpolatedPoint := interpolatePointOnTriangle ext triangle p.x p.y
  let r1 := { r with rawPoints := r.rawPoints ++ [interpolatedPoint] }
  let r2 := { r1 with minZ := stdMin r1.minZ interpolatedPoint.z }
  let r3 := { r2 with maxZ := stdMax r2.maxZ interpolatedPoint.z }
  let distance := (engine.lineLocatePoint p).distance
  let r4 := { r3 with
    mDistanceToHeightMap := QMap.insert distance interpolatedPoint.z r3.mDistanceToHeightMap }
  if g.mExtrusionEnabled then
    let top := Dbl.add interpolatedPoint.z g.mExtrusionHeight
    let r5 := { r4 with geometries := r4.geometries ++
      [some (QgsAbstractGeometry.lineString [interpolatedPoint,
        QgsPoint.mk interpolatedPoint.x interpolatedPoint.y top])] }
    let parts1 := transformedParts ++
      [some (QgsAbstractGeometry.lineString [QgsPoint.xy distance interpolatedPoint.z,
        QgsPoint.xy distance top])]
    let r6 := { r5 with minZ := stdMin r5.minZ top }
    ({ r6 with maxZ := stdMax r6.maxZ top }, parts1)
  else
    let r5 := { r4 with geometries := r4.geometries ++
      [some (QgsAbstractGeometry.point interpolatedPoint)] }
    (r5, transformedParts ++ [some (QgsAbstractGeometry.point (QgsPoint.xy distance interpolatedPoint.z))])

/-- The vectors `newX`, `newY`, `newZ`, `newDistance` and `extrudedZ` of the
line-string branch of `processTriangleLineIntersect`, as filled so far. -/
structure LineVectors where
  newX : List Dbl
  newY : List Dbl
  newZ : List Dbl
  newDistance : List Dbl
  extrudedZ : List Dbl
  deriving DecidableEq, Repr

/-- The loop `for ( int i = 0 ; i < numPoints; ++i )` of the line-string branch of
`processTriangleLineIntersect`. -/
def lineStringVertexLoop (ext : Externals) (g : Generator) (engine : QgsGeos)
    (triangle : Triangle) :
    List QgsPoint → QgsVectorLayerProfileResults → LineVectors →
      QgsVectorLayerProfileResults × LineVectors
  | [], r, v => (r, v)
  | vertex :: rest, r, v =>
      let x := vertex.x
      let y := vertex.y
      let interpolatedPoint := interpolatePointOnTriangle ext triangle x y
      let top := Dbl.add interpolatedPoint.z g.mExtrusionHeight
      let r1 := { r with rawPoints := r.rawPoints ++ [interpolatedPoint] }
      let r2 := { r1 with minZ := stdMin r1.minZ interpolatedPoint.z }
      let r3 := { r2 with maxZ := stdMax r2.maxZ interpolatedPoint.z }
      let r5 :=
        if g.mExtrusionEnabled then
          let r4 := { r3 with minZ := stdMin r3.minZ top }
          { r4 with maxZ := stdMax r4.maxZ top }
        else r3
      let distance := (engine.lineLocatePoint interpolatedPoint).distance
      let r6 := { r5 with
        mDistanceToHeightMap := QMap.insert distance interpolatedPoint.z r5.mDistanceToHeightMap }
      let v1 : LineVectors :=
        { newX := v.newX ++ [x]
          newY := v.newY ++ [y]
          newZ := v.newZ ++ [interpolatedPoint.z]
          newDistance := v.newDistance ++ [distance]
          extrudedZ := if g.mExtrusionEnabled then v.extrudedZ ++ [top] else v.extrudedZ }
      lineStringVertexLoop ext g engine triangle rest r6 v1

/-- The branch of `processTriangleLineIntersect` for an intersection that is a
`QgsLineString`. -/
def triangleIntersectLineString (ext : Externals) (g : Generator) (engine : QgsGeos)
    (triangle : Triangle) (ls : QgsLineString)
    (acc : QgsVectorLayerProfileResults × List QgsGeometry) :
    QgsVectorLayerProfileResults × List QgsGeometry :=
  let transformedParts := acc.2
  let looped := lineStringVertexLoop ext g engine triangle ls acc.1 ⟨[], [], [], [], []⟩
  let r := looped.1
  let v := looped.2
  if g.mExtrusionEnabled then
    let ring := QgsLineString.fromXYZ v.newX v.newY v.newZ
    let extrudedRing := QgsLineString.fromXYZ v.newX v.newY v.extrudedZ
    let reversedExtrusion := QgsLineString.reversed extrudedRing
    let ring2 := QgsLineString.close (QgsLineString.append ring reversedExtrusion)
    let r1 := { r with geometries := r.geometries ++ [some (QgsAbstractGeometry.polygon ring2)] }
    let distanceVHeightRing := QgsLineString.fromXY v.newDistance v.newZ
    let extrudedDistanceVHeightRing := QgsLineString.fromXY v.newDistance v.extrudedZ
    let reversedDistanceVHeightExtrusion := QgsLineString.reversed extrudedDistanceVHeightRing
    let distanceVHeightRing2 :=
      QgsLineString.close (QgsLineString.append distanceVHeightRing reversedDistanceVHeightExtrusion)
    (r1, transformedParts ++ [some (QgsAbstractGeometry.polygon distanceVHeightRing2)])
  else
    let r1 := { r with geometries := r.geometries ++
      [some (QgsAbstractGeometry.lineString (QgsLineString.fromXYZ v.newX v.newY v.newZ))] }
    (r1, transformedParts ++
      [some (QgsAbstractGeometry.lineString (QgsLineString.fromXY v.newDistance v.newZ))])

/-- The lambda `processTriangleLineIntersect` of `generateProfileForPolygons`.
The recursive calls on the members of a multi-point or multi-line string reach the
point branch and the line-string branch. -/
def processTriangleLineIntersect (ext : Externals) (g : Generator) (engine : QgsGeos)
    (triangle : Triangle) (intersect : QgsAbstractGeometry)
    (acc : QgsVectorLayerProfileResults × List QgsGeometry) :
    QgsVectorLayerProfileResults × List QgsGeometry :=
  match intersect with
  | .multiPoint mp => mp.foldl (fun a p => triangleIntersectPoint ext g engine triangle p a) acc
  | .point p => triangleIntersectPoint ext g engine triangle p acc
  | .multiLineString ml =>
      ml.foldl (fun a ls => triangleIntersectLineString ext g engine triangle ls a) acc
  | .lineString ls => triangleIntersectLineString ext g engine triangle ls acc
  | .polygon _ => acc
  | .multiPolygon _ => acc
  | .geometryCollection _ => acc

/-- The loop over the triangles of the tessellation in the lambda `processPolygon`. -/
def triangleLoop (ext : Externals) (g : Generator) (engine : QgsGeos) :
    List Triangle → RunState → List QgsGeometry → RunState × List QgsGeometry
  | [], s, transformedParts => (s, transformedParts)
  | triangle :: rest, s, transformedParts =>
      if (isCanceled g s).1 then ((isCanceled g s).2, transformedParts)
      else
        let s1 := (isCanceled g s).2
        if !engine.intersects (.triangle triangle) then
          triangleLoop ext g engine rest s1 transformedParts
        else
          match engine.intersection (.triangle triangle) with
          | none => triangleLoop ext g engine rest s1 transformedParts
          | some intersection =>
              let out := processTriangleLineIntersect ext g engine triangle intersection
                (s1.results, transformedParts)
              triangleLoop ext g engine rest { s1 with results := out.1 } out.2

/-- The lambda `processPolygon` of `generateProfileForPolygons`.  For a polygon that
is not a `QgsPolygon` the pointer `p` of the failed cast is null when
`p->segmentize()` is called.  The flag `clampAltitudes` returns is not looked at.
`Externals.tessellate` stands for the tessellation over the bounding box,
translated back. -/
def processPolygon (ext : Externals) (g : Generator) (engine : QgsGeos)
    (polygon : QgsCurvePolygon) (s : RunState) (transformedParts : List QgsGeometry) :
    Except Fault (RunState × List QgsGeometry) :=
  match polygon with
  | .curved _ => .error Fault.nullDereference
  | .polygon p =>
      let clamped := clampAltitudesPolygon ext g p s.polls
      let clampedPolygon := clamped.2.1
      let s1 : RunState := { s with polls := clamped.2.2 }
      if (isCanceled g s1).1 then .ok ((isCanceled g s1).2, transformedParts)
      else
        let s2 := (isCanceled g s1).2
        let tessellation := ext.tessellate clampedPolygon
        if (isCanceled g s2).1 then .ok ((isCanceled g s2).2, transformedParts)
        else
          let s3 := (isCanceled g s2).2
          .ok (triangleLoop ext g engine tessellation s3 transformedParts)

/-- The loop over the parts of a multi-part polygon feature. -/
def polygonFeatureParts (ext : Externals) (g : Generator) (engine : QgsGeos) :
    List QgsCurvePolygon → RunState → List QgsGeometry →
      Except Fault (RunState × List QgsGeometry)
  | [], s, transformedParts => .ok (s, transformedParts)
  | part :: rest, s, transformedParts =>
      if (isCanceled g s).1 then .ok ((isCanceled g s).2, transformedParts)
      else
        let s1 := (isCanceled g s).2
        if !engine.intersects (.curvePolygon part) then
          polygonFeatureParts ext g engine rest s1 transformedParts
        else
          match processPolygon ext g engine part s1 transformedParts with
          | .error e => .error e
          | .ok out => polygonFeatureParts ext g engine rest out.1 out.2

/-- The `while ( it.nextFeature( feature ) )` loop of `generateProfileForPolygons`. -/
def polygonFeatureLoop (ext : Externals) (g : Generator) (engine : QgsGeos) :
    List PolygonFeature → RunState → Except Fault (Bool × RunState)
  | [], s => .ok (true, s)
  | feature :: rest, s =>
      if (isCanceled g s).1 then .ok (false, (isCanceled g s).2)
      else
        let s1 := (isCanceled g s).2
        if !engine.intersects (.polygonFeature feature) then
          polygonFeatureLoop ext g engine rest s1
        else
          let processed :=
            match feature with
            | .multi parts => polygonFeatureParts ext g engine parts s1 []
            | .single p => processPolygon ext g engine p s1 []
          match processed with
          | .error e => .error e
          | .ok out =>
              let s2 := out.1
              let transformedParts := out.2
              if (isCanceled g s2).1 then .ok (false, (isCanceled g s2).2)
              else
                let s3 := (isCanceled g s2).2
                if !transformedParts.isEmpty then
                  let unioned0 := ext.unaryUnion transformedParts
                  let unioned :=
                    if QgsGeometry.type unioned0 = GeometryType.LineGeometry then
                      ext.mergeLines unioned0
                    else unioned0
                  let r := s3.results
                  polygonFeatureLoop ext g engine rest { s3 with results :=
                    { r with distanceVHeightGeometries := r.distanceVHeightGeometries ++ [unioned] } }
                else polygonFeatureLoop ext g engine rest s3

/-- The method `generateProfileForPolygons()`. -/
def generateProfileForPolygons (ext : Externals) (g : Generator) (profileCurve : QgsCurve)
    (engine : QgsGeos) (s : RunState) : Except Fault (Bool × RunState) :=
  let request := QgsFeatureRequest.filterRect (ext.boundingBox profileCurve)
  let features := g.mSource.polygonFeatures request
  polygonFeatureLoop ext g engine features { s with requests := s.requests ++ [request] }

/-- The results aggregate as `std::make_unique< QgsVectorLayerProfileResults >()` makes it. -/
def QgsVectorLayerProfileResults.fresh (ext : Externals) : QgsVectorLayerProfileResults :=
  { rawPoints := []
    mDistanceToHeightMap := []
    geometries := []
    distanceVHeightGeometries := []
    minZ := ext.numericLimitsMax
    maxZ := ext.numericLimitsLowest }

/-- The generator with what a builder left behind written back. -/
def Generator.store (g : Generator) (s : RunState) : Generator :=
  { g with polls := s.polls, requests := s.requests, mResults := some s.results }

/-- The method `generateProfile()`: the returned flag and the generator afterwards. -/
def generateProfile (ext : Externals) (g : Generator) : Except Fault (Bool × Generator) :=
  match g.mProfileCurve with
  | none => .ok (false, g)
  | some profileCurve =>
      if g.mFeedback.canceled g.polls then .ok (false, { g with polls := g.polls + 1 })
      else
        let g1 : Generator :=
          { g with
            polls := g.polls + 1
            mTransformedCurve := some profileCurve
            mLayerToTargetTransform := ext.coordinateTransform g.mSourceCrs g.mTargetCrs
            mTargetToTerrainProviderTransform :=
              match g.mTerrainProvider with
              | some provider => ext.coordinateTransform g.mTargetCrs provider.crs
              | none => g.mTargetToTerrainProviderTransform }
        match g1.mLayerToTargetTransform.transformCurveReverse profileCurve with
        | .error _ => .ok (false, g1)
        | .ok transformed =>
            let g2 : Generator := { g1 with mTransformedCurve := some transformed }
            let profileCurveBoundingBox := ext.boundingBox transformed
            if !ext.rectIntersects profileCurveBoundingBox g2.mExtent then .ok (false, g2)
            else if g2.mFeedback.canceled g2.polls then
              .ok (false, { g2 with polls := g2.polls + 1 })
            else
              let engine := ext.geos profileCurve
              let g3 : Generator :=
                { g2 with
                  polls := g2.polls + 1
                  mResults := some (QgsVectorLayerProfileResults.fresh ext)
                  mProfileCurveEngine := some engine }
              if g3.mFeedback.canceled g3.polls then
                .ok (false, { g3 with polls := g3.polls + 1 })
              else
                let s : RunState :=
                  { polls := g3.polls + 1
                    requests := g3.requests
                    results := QgsVectorLayerProfileResults.fresh ext }
                match g3.mWkbType with
                | .PointGeometry =>
                    let out := generateProfileForPoints g3 profileCurve engine s
                    .ok (out.1, g3.store out.2)
                | .LineGeometry =>
                    match generateProfileForLines ext g3 profileCurve engine s with
                    | .error e => .error e
                    | .ok out => .ok (out.1, g3.store out.2)
                | .PolygonGeometry =>
                    match generateProfileForPolygons ext g3 profileCurve engine s with
                    | .error e => .error e
                    | .ok out => .ok (out.1, g3.store out.2)
                | .UnknownGeometry => .ok (false, { g3 with polls := g3.polls + 1 })
                | .NullGeometry => .ok (false, { g3 with polls := g3.polls + 1 })

/-- The method `takeResults()`: the released pointer, and the generator left with none. -/
def takeResults (g : Generator) : Option QgsVectorLayerProfileResults × Generator :=
  (g.mResults, { g with mResults := none })

/-! ## The specification's words -/

/-- The function `resolveHeight( x, y, rawZ )` as the specification words it, over
the terrain height service `heightAt`. -/
def resolveHeight (clamping : AltitudeClamping) (scale offset : Dbl)
    (heightAt : Dbl → Dbl → Dbl) (x y rawZ : Dbl) : Dbl :=
  let absolute := Dbl.add (Dbl.mul rawZ scale) offset
  match clamping with
  | .Absolute => absolute
  | .Relative =>
      let terrainZ := heightAt x y
      if isnan terrainZ then absolute
      else
        let z := if isnan rawZ then terrainZ else Dbl.add rawZ terrainZ
        Dbl.add (Dbl.mul z scale) offset
  | .Terrain =>
      let terrainZ := heightAt x y
      if isnan terrainZ then absolute
      else Dbl.add (Dbl.mul terrainZ scale) offset

/-- The terrain height `terrainZ_i` the specification gives the vertex `p` in
`clampLineStringAltitudes`: 0 for Absolute, else the terrain height at the vertex
(Vertex binding) or at the shared reference point (Centroid binding). -/
def specTerrainZ (g : Generator) (centroid p : QgsPoint) : Dbl :=
  if g.mClamping = AltitudeClamping.Absolute then some 0
  else if g.mBinding = AltitudeBinding.Vertex then terrainHeight g p.x p.y
  else terrainHeight g centroid.x centroid.y

/-- The value `geomZ_i` the specification gives the vertex `p` in
`clampLineStringAltitudes`: 0 for Terrain, the Z of the vertex otherwise. -/
def specGeomZ (g : Generator) (p : QgsPoint) : Dbl :=
  if g.mClamping = AltitudeClamping.Terrain then some 0 else p.z

/-- The vertex `p` with the Z the specification has `clampLineStringAltitudes` write. -/
def specClampVertex (g : Generator) (centroid p : QgsPoint) : QgsPoint :=
  { x := p.x
    y := p.y
    z := Dbl.add (Dbl.mul (Dbl.add (specTerrainZ g centroid p) (specGeomZ g p)) g.mScale) g.mOffset }

/-! ## Concrete inputs -/

/-- A feedback object on which cancellation is never requested. -/
def neverCanceled : QgsFeedback := ⟨fun _ => false⟩

/-- A feedback object on which cancellation is requested from poll number `n` on. -/
def canceledFrom (n : Nat) : QgsFeedback := ⟨fun k => decide (n ≤ k)⟩

/-- A feature source without features. -/
def emptySource : QgsVectorLayerFeatureSource := ⟨fun _ => [], fun _ => [], fun _ => []⟩

/-- A terrain provider of constant height. -/
def flatTerrain (height : Dbl) : QgsAbstractTerrainProvider := ⟨"EPSG:4326", fun _ _ => height⟩

/-- A coordinate transform that throws on every input. -/
def failingTransform : QgsCoordinateTransform :=
  ⟨fun _ _ => .error ⟨"forward transform failed"⟩, fun _ => .error ⟨"inverse transform failed"⟩⟩

/-- A profile curve from (0, 0) to (10, 0). -/
def sampleCurve : QgsCurve :=
  ⟨CurveKind.LineString, [QgsPoint.xy (some 0) (some 0), QgsPoint.xy (some 10) (some 0)]⟩

/-- An engine that finds every geometry disjoint from its curve and locates every
point at the X of the point. -/
def sampleEngine : QgsGeos :=
  ⟨fun _ => false, fun _ => none, fun p => ⟨p.x, none⟩⟩

/-- Library functions for the concrete runs: identity transforms, every bounding
box meeting every other, no tessellation. -/
def sampleExternals : Externals :=
  { coordinateTransform := fun _ _ => QgsCoordinateTransform.identity
    boundingBox := fun _ => ⟨some 0, some 0, some 10, some 0⟩
    rectIntersects := fun _ _ => true
    geos := fun _ => sampleEngine
    interpolatePoint := fun _ _ => none
    centroid := fun _ => QgsPoint.empty
    tessellate := fun _ => []
    interpolateFromVerticesData := fun _ _ _ z1 _ _ _ _ => z1
    unaryUnion := fun parts => parts.head?.join
    mergeLines := fun geometry => geometry
    numericLimitsMax := some 1000000
    numericLimitsLowest := some (-1000000) }

/-- A generator over a point layer without features: Absolute clamping, Vertex
binding, scale 1, offset 0, no terrain provider, no extrusion. -/
def sampleGenerator : Generator :=
  { mFeedback := neverCanceled
    mProfileCurve := some sampleCurve
    mTerrainProvider := none
    mTolerance := some 1
    mSourceCrs := "EPSG:3857"
    mTargetCrs := "EPSG:3857"
    mExtent := ⟨some 0, some 0, some 10, some 10⟩
    mSource := emptySource
    mOffset := some 0
    mScale := some 1
    mClamping := AltitudeClamping.Absolute
    mBinding := AltitudeBinding.Vertex
    mExtrusionEnabled := false
    mExtrusionHeight := some 0
    mWkbType := GeometryType.PointGeometry
    mTransformedCurve := none
    mLayerToTargetTransform := QgsCoordinateTransform.identity
    mTargetToTerrainProviderTransform := QgsCoordinateTransform.identity
    mProfileCurveEngine := none
    mResults := none
    polls := 0
    requests := [] }

/-- The sample generator with Terrain clamping (and still no terrain provider). -/
def terrainClampedGenerator : Generator :=
  { sampleGenerator with mClamping := AltitudeClamping.Terrain }

/-- The sample generator with Terrain clamping over a terrain of constant height 7
whose coordinate transform throws. -/
def failingTerrainGenerator : Generator :=
  { sampleGenerator with
    mClamping := AltitudeClamping.Terrain
    mTerrainProvider := some (flatTerrain (some 7))
    mTargetToTerrainProviderTransform := failingTransform }

/-- The sample generator with Terrain clamping and Centroid binding over a terrain
of constant height 7, scale 2 and offset 1. -/
def flatTerrainGenerator : Generator :=
  { sampleGenerator with
    mClamping := AltitudeClamping.Terrain
    mBinding := AltitudeBinding.Centroid
    mScale := some 2
    mOffset := some 1
    mTerrainProvider := some (flatTerrain (some 7)) }

/-- The sample generator on which the third poll of the run, the one after the
engine is prepared, is the first to observe cancellation. -/
def canceledAtThirdPollGenerator : Generator :=
  { sampleGenerator with mFeedback := canceledFrom 2 }

/-- The sample generator without a profile curve. -/
def noCurveGenerator : Generator :=
  { sampleGenerator with mProfileCurve := none }

/-- The sample generator with cancellation requested before the run. -/
def canceledOnEntryGenerator : Generator :=
  { sampleGenerator with mFeedback := canceledFrom 0 }

/-- The sample library functions with coordinate transforms that throw. -/
def failingTransformExternals : Externals :=
  { sampleExternals with coordinateTransform := fun _ _ => failingTransform }

/-- Whether `generateProfile()` leaves before `mResults` is created: no profile
curve, cancellation observed by the first poll, a failing reverse transform of the
curve, a bounding box that misses the layer extent, or cancellation observed by the
second poll. -/
def exitsBeforeResults (ext : Externals) (g : Generator) : Bool :=
  match g.mProfileCurve with
  | none => true
  | some profileCurve =>
      g.mFeedback.canceled g.polls ||
        match (ext.coordinateTransform g.mSourceCrs g.mTargetCrs).transformCurveReverse
            profileCurve with
        | .error _ => true
        | .ok transformed =>
            !ext.rectIntersects (ext.boundingBox transformed) g.mExtent ||
              g.mFeedback.canceled (g.polls + 1)

/-- The generator a run of `generateProfile()` leaves behind; the given generator
when the run crashed. -/
def generatorAfter (run : Except Fault (Bool × Generator)) (g : Generator) : Generator :=
  match run with
  | .ok out => out.2
  | .error _ => g

/-! ## Samples -/

/-- A sample a point run or a line run records: the position, the resolved height
and the distance along the profile curve. -/
structure Sample where
  x : Dbl
  y : Dbl
  height : Dbl
  distance : Dbl
  deriving DecidableEq, Repr

/-- The raw point of a sample. -/
def Sample.rawPoint (sm : Sample) : QgsPoint := ⟨sm.x, sm.y, sm.height⟩

/-- The 3D geometry of a sample: a vertical segment when extrusion is enabled, a
point otherwise. -/
def Sample.geometry (g : Generator) (sm : Sample) : QgsGeometry :=
  if g.mExtrusionEnabled then
    some (QgsAbstractGeometry.lineString [QgsPoint.mk sm.x sm.y sm.height,
      QgsPoint.mk sm.x sm.y (Dbl.add sm.height g.mExtrusionHeight)])
  else some (QgsAbstractGeometry.point (QgsPoint.mk sm.x sm.y sm.height))

/-- The distance-height geometry of a sample. -/
def Sample.distanceVHeightGeometry (g : Generator) (sm : Sample) : QgsGeometry :=
  if g.mExtrusionEnabled then
    some (QgsAbstractGeometry.lineString [QgsPoint.xy sm.distance sm.height,
      QgsPoint.xy sm.distance (Dbl.add sm.height g.mExtrusionHeight)])
  else some (QgsAbstractGeometry.point (QgsPoint.xy sm.distance sm.height))

/-- The results `r` are the results `r0` with the given samples appended, in this
order: one raw point, one 3D geometry and one distance-height geometry per sample,
and the distance-to-height map with the samples inserted one after the other. -/
def SamplesAppended (g : Generator) (r0 r : QgsVectorLayerProfileResults)
    (samples : List Sample) : Prop :=
  r.rawPoints = r0.rawPoints ++ samples.map Sample.rawPoint
    ∧ r.geometries = r0.geometries ++ samples.map (Sample.geometry g)
    ∧ r.distanceVHeightGeometries
        = r0.distanceVHeightGeometries ++ samples.map (Sample.distanceVHeightGeometry g)
    ∧ r.mDistanceToHeightMap
        = samples.foldl (fun m sm => QMap.insert sm.distance sm.height m) r0.mDistanceToHeightMap

/-- The sample of a point part of a point feature. -/
def pointSample (g : Generator) (engine : QgsGeos) (point : QgsPoint) : Sample :=
  ⟨point.x, point.y, featureZToHeight g point.x point.y point.z,
    (engine.lineLocatePoint point).distance⟩

/-- The samples of the point features, in feature order and part order. -/
def pointRunSamples (g : Generator) (engine : QgsGeos) (features : List PointFeature) :
    List Sample :=
  (features.flatMap PointFeature.points).map (pointSample g engine)

/-- The sample of one part of the intersection of a line feature curve with the
profile curve: none for a part that is not a point, and none when the feature
curve has no point at the located distance. -/
def curvePartSample (ext : Externals) (g : Generator) (engine : QgsGeos) (curve : QgsCurve)
    (part : QgsAbstractGeometry) : Option Sample :=
  match part with
  | .point intersectionPoint =>
      match ext.interpolatePoint curve
          (((ext.geos curve).lineLocatePoint intersectionPoint).distance) with
      | some q =>
          some ⟨q.x, q.y, featureZToHeight g q.x q.y q.z, (engine.lineLocatePoint q).distance⟩
      | none => none
  | _ => none

/-- The samples of one curve of a line feature. -/
def curveSamples (ext : Externals) (g : Generator) (engine : QgsGeos) (curve : QgsCurve) :
    List Sample :=
  match engine.intersection (.curve curve) with
  | some intersection => intersection.parts.filterMap (curvePartSample ext g engine curve)
  | none => []

/-- The samples of one line feature. -/
def lineFeatureSamples (ext : Externals) (g : Generator) (engine : QgsGeos)
    (feature : LineFeature) : List Sample :=
  if engine.intersects (.lineFeature feature) then
    match feature with
    | .single c => curveSamples ext g engine c
    | .multi parts =>
        (parts.filter (fun c => engine.intersects (.curve c))).flatMap (curveSamples ext g engine)
  else []

/-- The samples of the line features, in feature order, part order and
intersection order. -/
def lineRunSamples (ext : Externals) (g : Generator) (engine : QgsGeos)
    (features : List LineFeature) : List Sample :=
  features.flatMap (lineFeatureSamples ext g engine)

/-- Whether the height of a sample is a height `featureZToHeight` resolves at the
position of the sample. -/
def Sample.Resolved (g : Generator) (sm : Sample) : Prop :=
  ∃ z, sm.height = featureZToHeight g sm.x sm.y z

/-- The results `r` are `r0` with some samples appended, each of a height that
`featureZToHeight` resolved; the samples are the `expected` ones when no poll
observes cancellation. -/
def SamplesRecorded (g : Generator) (r0 r : QgsVectorLayerProfileResults)
    (expected : List Sample) : Prop :=
  ∃ samples, SamplesAppended g r0 r samples
    ∧ (∀ sm ∈ samples, Sample.Resolved g sm)
    ∧ ((∀ k, g.mFeedback.canceled k = false) → samples = expected)

/-- The results after one sample has been recorded: what `processPoint` and the
loop body of `processCurve` do to `*mResults` once height and distance are known. -/
def recordSample (g : Generator) (sm : Sample) (r : QgsVectorLayerProfileResults) :
    QgsVectorLayerProfileResults :=
  let r1 := { r with rawPoints := r.rawPoints ++ [QgsPoint.mk sm.x sm.y sm.height] }
  let r2 := { r1 with minZ := stdMin r1.minZ sm.height }
  let r3 := { r2 with maxZ := stdMax r2.maxZ sm.height }
  let r4 := { r3 with
    mDistanceToHeightMap := QMap.insert sm.distance sm.height r3.mDistanceToHeightMap }
  if g.mExtrusionEnabled then
    let r5 := { r4 with geometries := r4.geometries ++
      [some (QgsAbstractGeometry.lineString [QgsPoint.mk sm.x sm.y sm.height,
        QgsPoint.mk sm.x sm.y (Dbl.add sm.height g.mExtrusionHeight)])] }
    let r6 := { r5 with distanceVHeightGeometries := r5.distanceVHeightGeometries ++
      [some (QgsAbstractGeometry.lineString [QgsPoint.xy sm.distance sm.height,
        QgsPoint.xy sm.distance (Dbl.add sm.height g.mExtrusionHeight)])] }
    let r7 := { r6 with minZ := stdMin r6.minZ (Dbl.add sm.height g.mExtrusionHeight) }
    { r7 with maxZ := stdMax r7.maxZ (Dbl.add sm.height g.mExtrusionHeight) }
  else
    let r5 := { r4 with geometries := r4.geometries ++
      [some (QgsAbstractGeometry.point (QgsPoint.mk sm.x sm.y sm.height))] }
    { r5 with distanceVHeightGeometries := r5.distanceVHeightGeometries ++
      [some (QgsAbstractGeometry.point (QgsPoint.xy sm.distance sm.height))] }

/-- A point layer with a single-point feature at (10, 20, 5) and a two-point feature. -/
def pointSource : QgsVectorLayerFeatureSource :=
  { pointFeatures := fun _ =>
      [PointFeature.single ⟨some 10, some 20, some 5⟩,
       PointFeature.multi [⟨some 1, some 1, some 2⟩, ⟨some 2, some 1, some 3⟩]]
    lineFeatures := fun _ => []
    polygonFeatures := fun _ => [] }

/-- A line layer with one two-vertex line string crossing the sample curve. -/
def lineSource : QgsVectorLayerFeatureSource :=
  { pointFeatures := fun _ => []
    lineFeatures := fun _ =>
      [LineFeature.single ⟨CurveKind.LineString,
        [⟨some 5, some (-1), some 4⟩, ⟨some 5, some 1, some 4⟩]⟩]
    polygonFeatures := fun _ => [] }

/-- An engine that finds every geometry intersecting its curve, in the single point
(5, 0), and locates every point at the X of the point. -/
def crossingEngine : QgsGeos :=
  ⟨fun _ => true, fun _ => some (QgsAbstractGeometry.point (QgsPoint.xy (some 5) (some 0))),
    fun p => ⟨p.x, none⟩⟩

/-- The sample library functions with the crossing engine and a feature curve
interpolation that always gives the point (5, 0, 4). -/
def crossingExternals : Externals :=
  { sampleExternals with
    geos := fun _ => crossingEngine
    interpolatePoint := fun _ _ => some ⟨some 5, some 0, some 4⟩ }

/-- The point layer under Terrain clamping over a terrain of constant height 7,
scale 2, offset 1, extrusion by 3. -/
def pointLayerGenerator : Generator :=
  { flatTerrainGenerator with
    mSource := pointSource
    mExtrusionEnabled := true
    mExtrusionHeight := some 3 }

/-- The line layer under Terrain clamping over a terrain of constant height 7,
scale 2, offset 1. -/
def lineLayerGenerator : Generator :=
  { flatTerrainGenerator with
    mSource := lineSource
    mWkbType := GeometryType.LineGeometry }

/-- The state a builder starts from in the concrete runs. -/
def sampleRunState : RunState := ⟨3, [], QgsVectorLayerProfileResults.fresh sampleExternals⟩

/-- A polygon whose exterior ring is a compound curve of straight segments, not a
line string. -/
def compoundRingPolygon : QgsPolygon :=
  { is3D := true
    exteriorRing := some ⟨CurveKind.CompoundCurve,
      [⟨some 0, some (-1), some 1⟩, ⟨some 10, some (-1), some 1⟩, ⟨some 10, some 1, some 1⟩,
       ⟨some 0, some (-1), some 1⟩]⟩
    interiorRings := [] }

/-- The same polygon with a line string as exterior ring. -/
def lineRingPolygon : QgsPolygon :=
  { is3D := true
    exteriorRing := some ⟨CurveKind.LineString,
      [⟨some 0, some (-1), some 1⟩, ⟨some 10, some (-1), some 1⟩, ⟨some 10, some 1, some 1⟩,
       ⟨some 0, some (-1), some 1⟩]⟩
    interiorRings := [] }

/-- The sample library functions with the crossing engine and a tessellation of
every polygon into the one triangle (0, -1, 1), (10, -1, 1), (10, 1, 1). -/
def triangleExternals : Externals :=
  { sampleExternals with
    geos := fun _ => crossingEngine
    tessellate := fun _ =>
      [⟨⟨some 0, some (-1), some 1⟩, ⟨some 10, some (-1), some 1⟩, ⟨some 10, some 1, some 1⟩⟩] }

/-- The sample generator over a polygon layer. -/
def polygonLayerGenerator : Generator :=
  { sampleGenerator with mWkbType := GeometryType.PolygonGeometry }

/-! ## Parts of polygon features -/

/-- The generator with a feedback object on which cancellation is never requested. -/
def Generator.uncanceled (g : Generator) : Generator :=
  { g with mFeedback := neverCanceled }

/-- The polygon as `clampAltitudes( polygon )` leaves it when no poll observes
cancellation. -/
def clampedPolygon (ext : Externals) (g : Generator) (polygon : QgsPolygon) : QgsPolygon :=
  (clampAltitudesPolygon ext g.uncanceled polygon 0).2.1

/-- The number of distance-height parts `processTriangleLineIntersect` makes of an
intersection: one per point and per line string, none of anything else. -/
def intersectionPartCount : QgsAbstractGeometry → Nat
  | .point _ => 1
  | .lineString _ => 1
  | .multiPoint ps => ps.length
  | .multiLineString ls => ls.length
  | .polygon _ => 0
  | .multiPolygon _ => 0
  | .geometryCollection _ => 0

/-- The number of distance-height parts a triangle yields: those of its intersection
with the profile curve when it intersects the curve and the engine gives the
intersection. -/
def trianglePartCount (engine : QgsGeos) (triangle : Triangle) : Nat :=
  if engine.intersects (.triangle triangle) then
    match engine.intersection (.triangle triangle) with
    | some intersection => intersectionPartCount intersection
    | none => 0
  else 0

/-- The number of distance-height parts a polygon part yields, over the triangles of
the tessellation of the clamped polygon. -/
def polygonPartCount (ext : Externals) (g : Generator) (engine : QgsGeos) :
    QgsCurvePolygon → Nat
  | .polygon p => ((ext.tessellate (clampedPolygon ext g p)).map (trianglePartCount engine)).sum
  | .curved _ => 0

/-- The number of distance-height parts a polygon feature yields: none when the
feature does not intersect the profile curve, else those of its intersecting parts. -/
def featurePartCount (ext : Externals) (g : Generator) (engine : QgsGeos)
    (feature : PolygonFeature) : Nat :=
  if engine.intersects (.polygonFeature feature) then
    match feature with
    | .single p => polygonPartCount ext g engine p
    | .multi parts =>
        ((parts.filter (fun p => engine.intersects (.curvePolygon p))).map
          (polygonPartCount ext g engine)).sum
  else 0

/-- Whether some triangle of the tessellation of a polygon part intersects the
profile curve. -/
def polygonHasIntersectingTriangle (ext : Externals) (g : Generator) (engine : QgsGeos) :
    QgsCurvePolygon → Bool
  | .polygon p =>
      (ext.tessellate (clampedPolygon ext g p)).any (fun t => engine.intersects (.triangle t))
  | .curved _ => false

/-- Whether a polygon feature produced at least one triangle that intersects the
profile curve. -/
def featureHasIntersectingTriangle (ext : Externals) (g : Generator) (engine : QgsGeos)
    (feature : PolygonFeature) : Bool :=
  engine.intersects (.polygonFeature feature) &&
    match feature with
    | .single p => polygonHasIntersectingTriangle ext g engine p
    | .multi parts =>
        parts.any (fun p =>
          engine.intersects (.curvePolygon p) && polygonHasIntersectingTriangle ext g engine p)

/-- A polygon layer with the single feature `lineRingPolygon`. -/
def polygonSource : QgsVectorLayerFeatureSource :=
  { pointFeatures := fun _ => []
    lineFeatures := fun _ => []
    polygonFeatures := fun _ => [PolygonFeature.single (QgsCurvePolygon.polygon lineRingPolygon)] }

/-- The sample generator over the polygon layer with the single feature. -/
def polygonRunGenerator : Generator :=
  { sampleGenerator with
    mWkbType := GeometryType.PolygonGeometry
    mSource := polygonSource }

/-- An engine that finds every geometry intersecting its curve, and whose
intersection is a geometry collection of the point (2, 0) and the segment from
(6, 0) to (8, 0): the curve touches the geometry in a point and crosses it
elsewhere. -/
def collectionEngine : QgsGeos :=
  ⟨fun _ => true,
    fun _ => some (QgsAbstractGeometry.geometryCollection
      [GeometryPart.point (QgsPoint.xy (some 2) (some 0)),
       GeometryPart.lineString [QgsPoint.xy (some 6) (some 0), QgsPoint.xy (some 8) (some 0)]]),
    fun p => ⟨p.x, none⟩⟩

/-- The sample library functions with the collection engine and the tessellation
into one triangle. -/
def collectionExternals : Externals :=
  { triangleExternals with geos := fun _ => collectionEngine }

/-! ## The Z range -/

/-- The Z range of `r` covers the raw points of `r`: both bounds are numbers, every
raw point with a height `h` that is a number has `minZ ≤ h ≤ maxZ`, and with
extrusion enabled by a height `e` that is a number also `minZ ≤ h + e ≤ maxZ`. -/
def ZRangeCovers (g : Generator) (r : QgsVectorLayerProfileResults) : Prop :=
  ∃ m M, r.minZ = some m ∧ r.maxZ = some M
    ∧ ∀ p ∈ r.rawPoints, ∀ h, p.z = some h →
        (m ≤ h ∧ h ≤ M)
          ∧ (g.mExtrusionEnabled = true → ∀ e, g.mExtrusionHeight = some e →
              m ≤ h + e ∧ h + e ≤ M)

/-- From `r0` to `r` the lower bound of the Z range has not increased and the upper
bound has not decreased (the bounds of `r0` being numbers). -/
def ZRangeWidened (r0 r : QgsVectorLayerProfileResults) : Prop :=
  ∀ m0 M0, r0.minZ = some m0 → r0.maxZ = some M0 →
    ∃ m M, r.minZ = some m ∧ r.maxZ = some M ∧ m ≤ m0 ∧ M0 ≤ M

/-- The Z range invariant is kept from `r0` to `r`: the range has only widened, and
it covers the raw points of `r` when it covered those of `r0`. -/
def ZRangeKept (g : Generator) (r0 r : QgsVectorLayerProfileResults) : Prop :=
  ZRangeWidened r0 r ∧ (ZRangeCovers g r0 → ZRangeCovers g r)

/-- The point layer generator with extrusion by the negative height -3. -/
def negativeExtrusionGenerator : Generator :=
  { pointLayerGenerator with mExtrusionHeight := some (-3) }

/-- The sample generator (Absolute clamping, scale 1, offset 0) with extrusion by 3. -/
def extrudedAbsoluteGenerator : Generator :=
  { sampleGenerator with
    mExtrusionEnabled := true
    mExtrusionHeight := some 3 }

/-! ## Engines that report no error -/

/-- The line layer generator with cancellation requested from poll number 4 on: the
three polls of `generateProfile()` and the poll for the one feature observe nothing,
the first poll inside `processCurve` observes the flag. -/
def lineCanceledGenerator : Generator :=
  { lineLayerGenerator with mFeedback := canceledFrom 4 }

/-- A polygon layer with a single curved polygon (a `QgsCurvePolygon` that is not a
`QgsPolygon`) whose exterior ring is a circular string. -/
def curvedPolygonSource : QgsVectorLayerFeatureSource :=
  { pointFeatures := fun _ => []
    lineFeatures := fun _ => []
    polygonFeatures := fun _ =>
      [PolygonFeature.single (QgsCurvePolygon.curved
        { is3D := true
          exteriorRing := some ⟨CurveKind.CircularString,
            [⟨some 0, some (-1), some 1⟩, ⟨some 10, some 0, some 1⟩, ⟨some 0, some (-1), some 1⟩]⟩
          interiorRings := [] })] }

/-- The sample generator over the polygon layer with the curved polygon. -/
def curvedPolygonGenerator : Generator :=
  { sampleGenerator with
    mWkbType := GeometryType.PolygonGeometry
    mSource := curvedPolygonSource }

/-! ## Ribbons of a line-string intersection -/

/-- The vertex (x_i, y_i, z_i) of the base line: the vertex of the intersection with
the height interpolated on the triangle. -/
def baseVertex (ext : Externals) (triangle : Triangle) (v : QgsPoint) : QgsPoint :=
  interpolatePointOnTriangle ext triangle v.x v.y

/-- The parts of a polygon feature that the loop body hands to `processPolygon`. -/
def PolygonFeature.parts : PolygonFeature → List QgsCurvePolygon
  | .single p => [p]
  | .multi parts => parts

theorem dbl_add_zero_left (a : Dbl) : Dbl.add (some 0) a = a := by
  cases a <;> simp [Dbl.add]

theorem dbl_add_zero_right (a : Dbl) : Dbl.add a (some 0) = a := by
  cases a <;> simp [Dbl.add]

theorem dbl_add_swap (a b : Dbl) : Dbl.add a b = Dbl.add b a := by
  cases a <;> cases b <;> simp [Dbl.add, add_comm]

/-! ## The altitude resolver -/

/-- C3. `featureZToHeight( x, y, rawZ )` equals the specification's `resolveHeight`
over the terrain height service `terrainHeight`, for every clamping mode and every
input (NaN being the absent value); and under Absolute clamping the result is
`rawZ * scale + offset` whatever the terrain provider and the transform to its CRS
are, so the terrain is not consulted. -/
theorem featureZToHeight_eq_resolveHeight (g : Generator) (x y rawZ : Dbl) :
    featureZToHeight g x y rawZ
        = resolveHeight g.mClamping g.mScale g.mOffset (terrainHeight g) x y rawZ
      ∧ ∀ (provider : Option QgsAbstractTerrainProvider) (transform : QgsCoordinateTransform),
          featureZToHeight
              { g with
                mClamping := AltitudeClamping.Absolute
                mTerrainProvider := provider
                mTargetToTerrainProviderTransform := transform } x y rawZ
            = Dbl.add (Dbl.mul rawZ g.mScale) g.mOffset := by
  refine ⟨?_, ?_⟩
  · unfold featureZToHeight resolveHeight
    cases hc : g.mClamping <;> simp only []
    · cases ht : isnan (terrainHeight g x y) <;> simp
    · cases ht : isnan (terrainHeight g x y) <;> simp
  · intro provider transform
    simp [featureZToHeight]

theorem pointFeatureLoop_not_canceled (g : Generator) (engine : QgsGeos)
    (hc : ∀ k, g.mFeedback.canceled k = false) (features : List PointFeature) :
    ∀ s : RunState, (pointFeatureLoop g engine features s).1 = true := by
  induction features with
  | nil => intro s; rfl
  | cons f rest ih =>
      intro s
      simp only [pointFeatureLoop, isCanceled, hc]
      exact ih _

/-- C5. `terrainHeight( x, y )` is NaN when no terrain provider is configured and
when the transform of (x, y) into the CRS of the provider throws; otherwise it is the
`heightAt` of the provider at the transformed coordinate.  A failing transform
stays local: `featureZToHeight` then computes `z * scale + offset`, and a point run
on which cancellation is never observed still returns true. -/
theorem terrainHeight_spec (g : Generator) (x y : Dbl) :
    (g.mTerrainProvider = none → terrainHeight g x y = quietNaN)
      ∧ (∀ e, g.mTargetToTerrainProviderTransform.transformInPlace x y = .error e →
          terrainHeight g x y = quietNaN)
      ∧ (∀ provider tx ty, g.mTerrainProvider = some provider →
          g.mTargetToTerrainProviderTransform.transformInPlace x y = .ok (tx, ty) →
          terrainHeight g x y = provider.heightAt tx ty)
      ∧ (∀ e z, g.mTargetToTerrainProviderTransform.transformInPlace x y = .error e →
          featureZToHeight g x y z = Dbl.add (Dbl.mul z g.mScale) g.mOffset)
      ∧ (∀ profileCurve engine s, (∀ k, g.mFeedback.canceled k = false) →
          (generateProfileForPoints g profileCurve engine s).1 = true) := by
  have hfail : ∀ e, g.mTargetToTerrainProviderTransform.transformInPlace x y = .error e →
      terrainHeight g x y = quietNaN := by
    intro e he
    unfold terrainHeight
    cases hp : g.mTerrainProvider with
    | none => rfl
    | some provider => simp only [he]
  refine ⟨?_, hfail, ?_, ?_, ?_⟩
  · intro h
    simp [terrainHeight, h]
  · intro provider tx ty hp ht
    simp [terrainHeight, hp, ht]
  · intro e z he
    have hn := hfail e he
    unfold featureZToHeight
    cases hc : g.mClamping <;> simp [hn, isnan, quietNaN]
  · intro profileCurve engine s hc
    exact pointFeatureLoop_not_canceled g engine hc _ _

/-- C5, at concrete inputs: no provider; a provider whose transform throws; a
provider of constant height 7 under the identity transform. -/
theorem terrainHeight_spec_witness :
    terrainHeight sampleGenerator (some 1) (some 2) = quietNaN
      ∧ terrainHeight failingTerrainGenerator (some 1) (some 2) = quietNaN
      ∧ terrainHeight flatTerrainGenerator (some 1) (some 2) = some 7
      ∧ featureZToHeight failingTerrainGenerator (some 1) (some 2) (some 5)
          = Dbl.add (Dbl.mul (some 5) (some 1)) (some 0)
      ∧ (generateProfileForPoints failingTerrainGenerator sampleCurve sampleEngine
          ⟨0, [], QgsVectorLayerProfileResults.fresh sampleExternals⟩).1 = true :=
  ⟨(terrainHeight_spec sampleGenerator (some 1) (some 2)).1 rfl,
   (terrainHeight_spec failingTerrainGenerator (some 1) (some 2)).2.1 _ rfl,
   (terrainHeight_spec flatTerrainGenerator (some 1) (some 2)).2.2.1
      (flatTerrain (some 7)) (some 1) (some 2) rfl rfl,
   (terrainHeight_spec failingTerrainGenerator (some 1) (some 2)).2.2.2.1 _ (some 5) rfl,
   (terrainHeight_spec failingTerrainGenerator (some 1) (some 2)).2.2.2.2
      sampleCurve sampleEngine _ (fun _ => rfl)⟩

theorem clampedVertexZ_eq_spec (g : Generator) (centroid p : QgsPoint) :
    ({ p with z := clampedVertexZ g centroid p } : QgsPoint) = specClampVertex g centroid p := by
  unfold clampedVertexZ specClampVertex specTerrainZ specGeomZ
  cases hc : g.mClamping <;> cases hb : g.mBinding <;> simp

theorem clampAltitudesLineString_map (g : Generator) (centroid : QgsPoint)
    (lineString : QgsLineString) :
    ∀ polls : Nat,
      (∀ i, i < lineString.length → g.mFeedback.canceled (polls + i) = false) →
      clampAltitudesLineString g centroid lineString polls
        = (lineString.map (specClampVertex g centroid), polls + lineString.length) := by
  induction lineString with
  | nil => intro polls _; rfl
  | cons p rest ih =>
      intro polls h
      have h0 : g.mFeedback.canceled polls = false := by
        simpa using h 0 (by simp)
      have hrest : ∀ i, i < rest.length → g.mFeedback.canceled (polls + 1 + i) = false := by
        intro i hi
        have := h (i + 1) (by simpa using hi)
        simpa [Nat.add_assoc, Nat.add_comm 1 i] using this
      simp only [clampAltitudesLineString, h0, ih (polls + 1) hrest, clampedVertexZ_eq_spec]
      simp [Nat.add_assoc, Nat.add_comm 1 rest.length]

/-- C6. When no poll of the loop observes cancellation,
`clampAltitudes( lineString, centroid )` rewrites every vertex to the same X and Y
with Z `(terrainZ + geomZ) * scale + offset`, `terrainZ` and `geomZ` being those of
the specification, and keeps the number of vertices.  With Terrain clamping and
Centroid binding every vertex gets the Z `(terrainHeight(centroid) + 0) * scale + offset`. -/
theorem clampAltitudesLineString_spec (g : Generator) (centroid : QgsPoint)
    (lineString : QgsLineString) (polls : Nat)
    (h : ∀ i, i < lineString.length → g.mFeedback.canceled (polls + i) = false) :
    (clampAltitudesLineString g centroid lineString polls).1
        = lineString.map (specClampVertex g centroid)
      ∧ (clampAltitudesLineString g centroid lineString polls).1.length = lineString.length
      ∧ (∀ i (hi : i < lineString.length),
          ((clampAltitudesLineString g centroid lineString polls).1[i]?).map (fun v => (v.x, v.y))
            = some ((lineString.get ⟨i, hi⟩).x, (lineString.get ⟨i, hi⟩).y))
      ∧ (g.mClamping = AltitudeClamping.Terrain → g.mBinding = AltitudeBinding.Centroid →
          ∀ v ∈ (clampAltitudesLineString g centroid lineString polls).1,
            v.z = Dbl.add (Dbl.mul (Dbl.add (terrainHeight g centroid.x centroid.y) (some 0))
              g.mScale) g.mOffset) := by
  rw [clampAltitudesLineString_map g centroid lineString polls h]
  refine ⟨rfl, by simp, ?_, ?_⟩
  · intro i hi
    simp [List.getElem?_map, List.getElem?_eq_getElem hi, specClampVertex]
  · intro hc hb v hv
    simp only [List.mem_map] at hv
    obtain ⟨p, _, rfl⟩ := hv
    simp [specClampVertex, specTerrainZ, specGeomZ, hc, hb]

/-- C6, at a concrete input: two vertices with different Z under Terrain clamping
and Centroid binding over a terrain of constant height 7, scale 2 and offset 1. -/
theorem clampAltitudesLineString_spec_witness :
    (clampAltitudesLineString flatTerrainGenerator (QgsPoint.xy (some 3) (some 4))
        [⟨some 0, some 0, some 5⟩, ⟨some 1, some 0, some 9⟩] 0).1
      = [⟨some 0, some 0, some 5⟩, ⟨some 1, some 0, some 9⟩].map
          (specClampVertex flatTerrainGenerator (QgsPoint.xy (some 3) (some 4)))
      ∧ ∀ v ∈ (clampAltitudesLineString flatTerrainGenerator (QgsPoint.xy (some 3) (some 4))
            [⟨some 0, some 0, some 5⟩, ⟨some 1, some 0, some 9⟩] 0).1,
          v.z = Dbl.add (Dbl.mul (Dbl.add
            (terrainHeight flatTerrainGenerator (some 3) (some 4)) (some 0)) (some 2)) (some 1) :=
  ⟨(clampAltitudesLineString_spec flatTerrainGenerator (QgsPoint.xy (some 3) (some 4))
      [⟨some 0, some 0, some 5⟩, ⟨some 1, some 0, some 9⟩] 0 (fun _ _ => rfl)).1,
   (clampAltitudesLineString_spec flatTerrainGenerator (QgsPoint.xy (some 3) (some 4))
      [⟨some 0, some 0, some 5⟩, ⟨some 1, some 0, some 9⟩] 0 (fun _ _ => rfl)).2.2.2 rfl rfl⟩

/-- C7. Under Terrain clamping and Vertex binding without a terrain provider, scale
1 and offset 0, `clampAltitudes( lineString, centroid )` writes NaN to the vertex
(1, 2, 5), while `featureZToHeight( 1, 2, 5 )` is 5. -/
theorem clampAltitudes_differs_from_featureZToHeight :
    (clampAltitudesLineString terrainClampedGenerator QgsPoint.empty
        [⟨some 1, some 2, some 5⟩] 0).1 = [⟨some 1, some 2, quietNaN⟩]
      ∧ featureZToHeight terrainClampedGenerator (some 1) (some 2) (some 5) = some 5 := by
  constructor
  · simp [clampAltitudesLineString, clampedVertexZ, terrainClampedGenerator, sampleGenerator,
      neverCanceled, terrainHeight, quietNaN, Dbl.add, Dbl.mul]
  · simp [featureZToHeight, terrainClampedGenerator, sampleGenerator, terrainHeight, quietNaN,
      isnan, Dbl.add, Dbl.mul]

/-! ## The orchestrator -/

/-- C2. `generateProfile()` returns false and leaves `mResults`, the profile curve
engine and the list of feature requests as they were (no results aggregate created,
no engine built, no feature requested) when there is no profile curve, when the
first poll observes cancellation, and when the reverse transform of the profile
curve into the layer CRS throws. -/
theorem generateProfile_early_failure (ext : Externals) (g : Generator) :
    (g.mProfileCurve = none →
        ∃ g1, generateProfile ext g = .ok (false, g1) ∧ g1.mResults = g.mResults
          ∧ g1.mProfileCurveEngine = g.mProfileCurveEngine ∧ g1.requests = g.requests)
      ∧ (g.mFeedback.canceled g.polls = true →
        ∃ g1, generateProfile ext g = .ok (false, g1) ∧ g1.mResults = g.mResults
          ∧ g1.mProfileCurveEngine = g.mProfileCurveEngine ∧ g1.requests = g.requests)
      ∧ (∀ profileCurve e, g.mProfileCurve = some profileCurve →
          (ext.coordinateTransform g.mSourceCrs g.mTargetCrs).transformCurveReverse profileCurve
            = .error e →
        ∃ g1, generateProfile ext g = .ok (false, g1) ∧ g1.mResults = g.mResults
          ∧ g1.mProfileCurveEngine = g.mProfileCurveEngine ∧ g1.requests = g.requests) := by
  refine ⟨?_, ?_, ?_⟩
  · intro h
    unfold generateProfile
    simp only [h]
    exact ⟨_, rfl, rfl, rfl, rfl⟩
  · intro h
    unfold generateProfile
    cases hc : g.mProfileCurve with
    | none => exact ⟨_, rfl, rfl, rfl, rfl⟩
    | some c =>
        simp only [h, if_true]
        exact ⟨_, rfl, rfl, rfl, rfl⟩
  · intro c e hc he
    unfold generateProfile
    cases hp : g.mFeedback.canceled g.polls with
    | true =>
        simp only [hc, hp, if_true]
        exact ⟨_, rfl, rfl, rfl, rfl⟩
    | false =>
        simp only [hc, hp, he, Bool.false_eq_true, if_false]
        exact ⟨_, rfl, rfl, rfl, rfl⟩

/-- C2, at concrete inputs: a generator without a profile curve, one canceled
before the run, and one whose reverse transform throws. -/
theorem generateProfile_early_failure_witness :
    (∃ g1, generateProfile sampleExternals noCurveGenerator = .ok (false, g1)
        ∧ g1.mResults = noCurveGenerator.mResults
        ∧ g1.mProfileCurveEngine = noCurveGenerator.mProfileCurveEngine
        ∧ g1.requests = noCurveGenerator.requests)
      ∧ (∃ g1, generateProfile sampleExternals canceledOnEntryGenerator = .ok (false, g1)
        ∧ g1.mResults = canceledOnEntryGenerator.mResults
        ∧ g1.mProfileCurveEngine = canceledOnEntryGenerator.mProfileCurveEngine
        ∧ g1.requests = canceledOnEntryGenerator.requests)
      ∧ (∃ g1, generateProfile failingTransformExternals sampleGenerator = .ok (false, g1)
        ∧ g1.mResults = sampleGenerator.mResults
        ∧ g1.mProfileCurveEngine = sampleGenerator.mProfileCurveEngine
        ∧ g1.requests = sampleGenerator.requests) :=
  ⟨(generateProfile_early_failure sampleExternals noCurveGenerator).1 rfl,
   (generateProfile_early_failure sampleExternals canceledOnEntryGenerator).2.1 rfl,
   (generateProfile_early_failure failingTransformExternals sampleGenerator).2.2
      sampleCurve ⟨"inverse transform failed"⟩ rfl rfl⟩

/-- C1, refuted as stated: on the sample generator with cancellation first observed
by the third poll, `generateProfile()` returns false and `takeResults()` returns
the results aggregate the run created. -/
theorem generateProfile_false_with_results :
    ∃ g1, generateProfile sampleExternals canceledAtThirdPollGenerator = .ok (false, g1)
      ∧ (takeResults g1).1 = some (QgsVectorLayerProfileResults.fresh sampleExternals) :=
  ⟨_, rfl, rfl⟩

/-- C1, amended. On a generator that holds no results yet, a run of
`generateProfile()` that leaves before `mResults` is created returns false and a
following `takeResults()` returns null; every other run, also one that returns
false, leaves a results aggregate that `takeResults()` returns. -/
theorem generateProfile_results_exposed (ext : Externals) (g g1 : Generator) (b : Bool)
    (hfresh : g.mResults = none) (hrun : generateProfile ext g = .ok (b, g1)) :
    (exitsBeforeResults ext g = true → b = false ∧ (takeResults g1).1 = none)
      ∧ (exitsBeforeResults ext g = false → ∃ r, (takeResults g1).1 = some r) := by
  unfold generateProfile at hrun
  unfold exitsBeforeResults takeResults
  cases hc : g.mProfileCurve with
  | none =>
      simp only [hc] at hrun
      injection hrun with hrun
      injection hrun with hb hg
      subst hb; subst hg
      simp [hfresh]
  | some c =>
      simp only [hc] at hrun
      cases hp : g.mFeedback.canceled g.polls with
      | true =>
          simp only [hp, if_true] at hrun
          injection hrun with hrun
          injection hrun with hb hg
          subst hb; subst hg
          simp [hfresh]
      | false =>
          simp only [hp, Bool.false_eq_true, if_false] at hrun
          cases ht : (ext.coordinateTransform g.mSourceCrs g.mTargetCrs).transformCurveReverse c with
          | error e =>
              simp only [ht] at hrun
              injection hrun with hrun
              injection hrun with hb hg
              subst hb; subst hg
              simp [hfresh, ht]
          | ok t =>
              simp only [ht] at hrun
              cases hr : ext.rectIntersects (ext.boundingBox t) g.mExtent with
              | false =>
                  simp only [hr, Bool.not_false, if_true] at hrun
                  injection hrun with hrun
                  injection hrun with hb hg
                  subst hb; subst hg
                  simp [hfresh, ht, hr]
              | true =>
                  simp only [hr, Bool.not_true, Bool.false_eq_true, if_false] at hrun
                  cases hp2 : g.mFeedback.canceled (g.polls + 1) with
                  | true =>
                      simp only [hp2, if_true] at hrun
                      injection hrun with hrun
                      injection hrun with hb hg
                      subst hb; subst hg
                      simp [hfresh, ht, hr, hp2]
                  | false =>
                      simp only [hp2, Bool.false_eq_true, if_false] at hrun
                      refine ⟨fun h => ?_, fun _ => ?_⟩
                      · simp [hp, ht, hr, hp2] at h
                      split at hrun
                      · injection hrun with hrun
                        injection hrun with hb hg
                        subst hg
                        exact ⟨_, rfl⟩
                      · split at hrun
                        · injection hrun with hrun
                          injection hrun with hb hg
                          subst hg
                          exact ⟨_, rfl⟩
                        · split at hrun
                          · exact absurd hrun (by simp)
                          · injection hrun with hrun
                            injection hrun with hb hg
                            subst hg
                            exact ⟨_, rfl⟩
                        · split at hrun
                          · exact absurd hrun (by simp)
                          · injection hrun with hrun
                            injection hrun with hb hg
                            subst hg
                            exact ⟨_, rfl⟩
                        · injection hrun with hrun
                          injection hrun with hb hg
                          subst hg
                          exact ⟨_, rfl⟩
                        · injection hrun with hrun
                          injection hrun with hb hg
                          subst hg
                          exact ⟨_, rfl⟩

/-- C1 amended, at concrete inputs: the run canceled before it starts exposes no
results, the run canceled at its third poll exposes the results it created. -/
theorem generateProfile_results_exposed_witness :
    (false = false
        ∧ (takeResults (generatorAfter (generateProfile sampleExternals canceledOnEntryGenerator)
            canceledOnEntryGenerator)).1 = none)
      ∧ ∃ r, (takeResults (generatorAfter
          (generateProfile sampleExternals canceledAtThirdPollGenerator)
            canceledAtThirdPollGenerator)).1 = some r :=
  ⟨(generateProfile_results_exposed sampleExternals canceledOnEntryGenerator _ false rfl rfl).1 rfl,
   (generateProfile_results_exposed sampleExternals canceledAtThirdPollGenerator _ false rfl rfl).2
      rfl⟩

/-! ## Samples of point runs and line runs -/

theorem samplesAppended_nil (g : Generator) (r : QgsVectorLayerProfileResults) :
    SamplesAppended g r r [] := by
  simp [SamplesAppended]

theorem samplesAppended_trans {g : Generator} {r0 r1 r2 : QgsVectorLayerProfileResults}
    {l1 l2 : List Sample} (h1 : SamplesAppended g r0 r1 l1) (h2 : SamplesAppended g r1 r2 l2) :
    SamplesAppended g r0 r2 (l1 ++ l2) := by
  obtain ⟨a1, b1, c1, d1⟩ := h1
  obtain ⟨a2, b2, c2, d2⟩ := h2
  refine ⟨?_, ?_, ?_, ?_⟩
  · rw [a2, a1]; simp
  · rw [b2, b1]; simp
  · rw [c2, c1]; simp
  · rw [d2, d1]; simp [List.foldl_append]

theorem samplesAppended_lengths {g : Generator} {r0 r : QgsVectorLayerProfileResults}
    {l : List Sample} (h : SamplesAppended g r0 r l) :
    r.rawPoints.length = r0.rawPoints.length + l.length
      ∧ r.geometries.length = r0.geometries.length + l.length
      ∧ r.distanceVHeightGeometries.length = r0.distanceVHeightGeometries.length + l.length := by
  obtain ⟨a, b, c, _⟩ := h
  rw [a, b, c]
  simp

theorem processPoint_appended (g : Generator) (engine : QgsGeos) (point : QgsPoint)
    (r : QgsVectorLayerProfileResults) :
    SamplesAppended g r (processPoint g engine point r) [pointSample g engine point] := by
  unfold processPoint SamplesAppended pointSample Sample.rawPoint Sample.geometry
    Sample.distanceVHeightGeometry
  cases he : g.mExtrusionEnabled <;> simp

theorem processPoint_foldl_appended (g : Generator) (engine : QgsGeos) (points : List QgsPoint) :
    ∀ r : QgsVectorLayerProfileResults,
      SamplesAppended g r (points.foldl (fun acc p => processPoint g engine p acc) r)
        (points.map (pointSample g engine)) := by
  induction points with
  | nil => intro r; exact samplesAppended_nil g r
  | cons p rest ih =>
      intro r
      simpa using samplesAppended_trans (processPoint_appended g engine p r) (ih _)

theorem pointFeatureLoop_appended (g : Generator) (engine : QgsGeos)
    (features : List PointFeature) :
    ∀ s : RunState, ∃ n, n ≤ features.length
      ∧ SamplesAppended g s.results (pointFeatureLoop g engine features s).2.results
          (pointRunSamples g engine (features.take n))
      ∧ ((pointFeatureLoop g engine features s).1 = true → n = features.length) := by
  induction features with
  | nil =>
      intro s
      exact ⟨0, le_refl _, by simpa [pointFeatureLoop, pointRunSamples] using samplesAppended_nil g _,
        fun _ => rfl⟩
  | cons f rest ih =>
      intro s
      cases hc : g.mFeedback.canceled s.polls with
      | true =>
          refine ⟨0, Nat.zero_le _, ?_, ?_⟩
          · simpa [pointFeatureLoop, isCanceled, hc, pointRunSamples] using samplesAppended_nil g _
          · simp [pointFeatureLoop, isCanceled, hc]
      | false =>
          cases f with
          | single p =>
              obtain ⟨n, hn, happ, hall⟩ := ih
                { polls := s.polls + 1, requests := s.requests,
                  results := processPoint g engine p s.results }
              refine ⟨n + 1, by simpa using hn, ?_, ?_⟩
              · have := samplesAppended_trans (processPoint_appended g engine p s.results) happ
                simpa [pointFeatureLoop, isCanceled, hc, pointRunSamples, List.flatMap_cons,
                  PointFeature.points] using this
              · intro hb
                simp only [pointFeatureLoop, isCanceled, hc] at hb
                simpa using hall hb
          | multi parts =>
              obtain ⟨n, hn, happ, hall⟩ := ih
                { polls := s.polls + 1, requests := s.requests,
                  results := parts.foldl (fun acc p => processPoint g engine p acc) s.results }
              refine ⟨n + 1, by simpa using hn, ?_, ?_⟩
              · have := samplesAppended_trans
                  (processPoint_foldl_appended g engine parts s.results) happ
                simpa [pointFeatureLoop, isCanceled, hc, pointRunSamples, List.flatMap_cons,
                  PointFeature.points] using this
              · intro hb
                simp only [pointFeatureLoop, isCanceled, hc] at hb
                simpa using hall hb

theorem samplesRecorded_nil (g : Generator) (r : QgsVectorLayerProfileResults) :
    SamplesRecorded g r r [] :=
  ⟨[], samplesAppended_nil g r, by simp, fun _ => rfl⟩

theorem samplesRecorded_canceled (g : Generator) (r : QgsVectorLayerProfileResults)
    (expected : List Sample) (k : Nat) (hk : g.mFeedback.canceled k = true) :
    SamplesRecorded g r r expected :=
  ⟨[], samplesAppended_nil g r, by simp, fun h => by simp [h k] at hk⟩

theorem samplesRecorded_trans {g : Generator} {r0 r1 r2 : QgsVectorLayerProfileResults}
    {e1 e2 : List Sample} (h1 : SamplesRecorded g r0 r1 e1) (h2 : SamplesRecorded g r1 r2 e2) :
    SamplesRecorded g r0 r2 (e1 ++ e2) := by
  obtain ⟨l1, a1, p1, x1⟩ := h1
  obtain ⟨l2, a2, p2, x2⟩ := h2
  refine ⟨l1 ++ l2, samplesAppended_trans a1 a2, ?_, ?_⟩
  · intro sm hsm
    rcases List.mem_append.mp hsm with h | h
    · exact p1 sm h
    · exact p2 sm h
  · intro hc
    rw [x1 hc, x2 hc]

theorem processCurveParts_other (ext : Externals) (g : Generator) (engine : QgsGeos)
    (curve : QgsCurve) (curveGeos : QgsGeos) (part : QgsAbstractGeometry)
    (rest : List QgsAbstractGeometry) (s : RunState) (hpart : ∀ p, part ≠ .point p) :
    processCurveParts ext g engine curve curveGeos (part :: rest) s
        = (if g.mFeedback.canceled s.polls then .ok { s with polls := s.polls + 1 }
          else processCurveParts ext g engine curve curveGeos rest { s with polls := s.polls + 1 })
      ∧ curvePartSample ext g engine curve part = none := by
  cases part with
  | point p => exact absurd rfl (hpart p)
  | lineString l => exact ⟨by simp [processCurveParts, isCanceled], rfl⟩
  | polygon e => exact ⟨by simp [processCurveParts, isCanceled], rfl⟩
  | multiPoint ps => exact ⟨by simp [processCurveParts, isCanceled], rfl⟩
  | multiLineString ls => exact ⟨by simp [processCurveParts, isCanceled], rfl⟩
  | multiPolygon ps => exact ⟨by simp [processCurveParts, isCanceled], rfl⟩
  | geometryCollection parts => exact ⟨by simp [processCurveParts, isCanceled], rfl⟩

theorem recordSample_appended (g : Generator) (sm : Sample)
    (r : QgsVectorLayerProfileResults) :
    SamplesAppended g r (recordSample g sm r) [sm] := by
  unfold recordSample SamplesAppended Sample.rawPoint Sample.geometry
    Sample.distanceVHeightGeometry
  cases he : g.mExtrusionEnabled <;> simp

theorem processPoint_eq_recordSample (g : Generator) (engine : QgsGeos) (point : QgsPoint)
    (r : QgsVectorLayerProfileResults) :
    processPoint g engine point r = recordSample g (pointSample g engine point) r := rfl

theorem processCurveParts_point (ext : Externals) (g : Generator) (engine : QgsGeos)
    (curve : QgsCurve) (curveGeos : QgsGeos) (ip : QgsPoint)
    (rest : List QgsAbstractGeometry) (s : RunState) :
    processCurveParts ext g engine curve curveGeos (.point ip :: rest) s
      = (if g.mFeedback.canceled s.polls then .ok { s with polls := s.polls + 1 }
        else
          match ext.interpolatePoint curve ((curveGeos.lineLocatePoint ip).distance) with
          | none => .error Fault.nullDereference
          | some q =>
              processCurveParts ext g engine curve curveGeos rest
                { polls := s.polls + 1
                  requests := s.requests
                  results := recordSample g
                    ⟨q.x, q.y, featureZToHeight g q.x q.y q.z, (engine.lineLocatePoint q).distance⟩
                    s.results }) := rfl

theorem processCurveParts_recorded (ext : Externals) (g : Generator) (engine : QgsGeos)
    (curve : QgsCurve) (parts : List QgsAbstractGeometry) :
    ∀ s s1 : RunState,
      processCurveParts ext g engine curve (ext.geos curve) parts s = .ok s1 →
      SamplesRecorded g s.results s1.results
        (parts.filterMap (curvePartSample ext g engine curve)) := by
  induction parts with
  | nil =>
      intro s s1 h
      simp only [processCurveParts, Except.ok.injEq] at h
      subst h
      exact samplesRecorded_nil g _
  | cons part rest ih =>
      intro s s1 h
      cases hc : g.mFeedback.canceled s.polls with
      | true =>
          have hs : s1 = { s with polls := s.polls + 1 } := by
            cases part <;> simp [processCurveParts, isCanceled, hc] at h <;> exact h.symm
          subst hs
          exact samplesRecorded_canceled g _ _ _ hc
      | false =>
          by_cases hp : ∃ p, part = .point p
          · obtain ⟨ip, rfl⟩ := hp
            rw [processCurveParts_point] at h
            simp only [hc, Bool.false_eq_true, if_false] at h
            cases hq : ext.interpolatePoint curve (((ext.geos curve).lineLocatePoint ip).distance) with
            | none => simp [hq] at h
            | some q =>
                simp only [hq] at h
                have hrest := ih _ _ h
                have hone : SamplesRecorded g s.results
                    (recordSample g ⟨q.x, q.y, featureZToHeight g q.x q.y q.z,
                      (engine.lineLocatePoint q).distance⟩ s.results)
                    [(⟨q.x, q.y, featureZToHeight g q.x q.y q.z,
                      (engine.lineLocatePoint q).distance⟩ : Sample)] :=
                  ⟨_, recordSample_appended g _ _, by simp [Sample.Resolved], fun _ => rfl⟩
                have := samplesRecorded_trans hone hrest
                simpa [List.filterMap_cons, curvePartSample, hq] using this
          · have hp2 : ∀ p, part ≠ .point p := fun p hpp => hp ⟨p, hpp⟩
            obtain ⟨heq, hnone⟩ := processCurveParts_other ext g engine curve (ext.geos curve)
              part rest s hp2
            rw [heq] at h
            simp only [hc, Bool.false_eq_true, if_false] at h
            have := ih _ _ h
            simpa [List.filterMap_cons, hnone] using this

theorem processCurve_recorded (ext : Externals) (g : Generator) (engine : QgsGeos)
    (curve : QgsCurve) (s s1 : RunState)
    (h : processCurve ext g engine curve s = .ok s1) :
    SamplesRecorded g s.results s1.results (curveSamples ext g engine curve) := by
  unfold processCurve at h
  unfold curveSamples
  cases hi : engine.intersection (.curve curve) with
  | none =>
      simp only [hi, Except.ok.injEq] at h
      subst h
      exact samplesRecorded_nil g _
  | some intersection =>
      simp only [hi, isCanceled] at h
      cases hc : g.mFeedback.canceled s.polls with
      | true =>
          simp only [hc, if_true, Except.ok.injEq] at h
          subst h
          exact samplesRecorded_canceled g _ _ _ hc
      | false =>
          simp only [hc, Bool.false_eq_true, if_false] at h
          cases hc2 : g.mFeedback.canceled (s.polls + 1) with
          | true =>
              simp only [hc2, if_true, Except.ok.injEq] at h
              subst h
              exact samplesRecorded_canceled g _ _ _ hc2
          | false =>
              simp only [hc2, Bool.false_eq_true, if_false] at h
              exact processCurveParts_recorded ext g engine curve intersection.parts
                { polls := s.polls + 1 + 1, requests := s.requests, results := s.results } s1 h

theorem lineFeatureParts_recorded (ext : Externals) (g : Generator) (engine : QgsGeos)
    (parts : List QgsCurve) :
    ∀ s s1 : RunState, lineFeatureParts ext g engine parts s = .ok s1 →
      SamplesRecorded g s.results s1.results
        ((parts.filter (fun c => engine.intersects (.curve c))).flatMap
          (curveSamples ext g engine)) := by
  induction parts with
  | nil =>
      intro s s1 h
      simp only [lineFeatureParts, Except.ok.injEq] at h
      subst h
      exact samplesRecorded_nil g _
  | cons part rest ih =>
      intro s s1 h
      cases hx : engine.intersects (.curve part) with
      | false =>
          simp only [lineFeatureParts, hx, Bool.not_false, if_true] at h
          simpa [List.filter_cons, hx] using ih _ _ h
      | true =>
          simp only [lineFeatureParts, hx, Bool.not_true, Bool.false_eq_true, if_false] at h
          cases hp : processCurve ext g engine part s with
          | error e => simp [hp] at h
          | ok s2 =>
              simp only [hp] at h
              have := samplesRecorded_trans (processCurve_recorded ext g engine part s s2 hp)
                (ih _ _ h)
              simpa [List.filter_cons, hx, List.flatMap_cons] using this

theorem lineFeatureLoop_recorded (ext : Externals) (g : Generator) (engine : QgsGeos)
    (features : List LineFeature) :
    ∀ (s : RunState) (out : Bool × RunState),
      lineFeatureLoop ext g engine features s = .ok out →
      SamplesRecorded g s.results out.2.results (lineRunSamples ext g engine features) := by
  induction features with
  | nil =>
      intro s out h
      simp only [lineFeatureLoop, Except.ok.injEq] at h
      subst h
      exact samplesRecorded_nil g _
  | cons f rest ih =>
      intro s out h
      cases hc : g.mFeedback.canceled s.polls with
      | true =>
          simp only [lineFeatureLoop, isCanceled, hc, if_true, Except.ok.injEq] at h
          subst h
          exact samplesRecorded_canceled g _ _ _ hc
      | false =>
          simp only [lineFeatureLoop, isCanceled, hc, Bool.false_eq_true, if_false] at h
          cases hx : engine.intersects (.lineFeature f) with
          | false =>
              simp only [hx, Bool.not_false, if_true] at h
              simpa [lineRunSamples, List.flatMap_cons, lineFeatureSamples, hx] using ih _ _ h
          | true =>
              simp only [hx, Bool.not_true, Bool.false_eq_true, if_false] at h
              cases f with
              | single c =>
                  simp only [] at h
                  cases hp : processCurve ext g engine c
                      { polls := s.polls + 1, requests := s.requests, results := s.results } with
                  | error e => simp [hp] at h
                  | ok s2 =>
                      simp only [hp] at h
                      have := samplesRecorded_trans
                        (processCurve_recorded ext g engine c _ s2 hp) (ih _ _ h)
                      simpa [lineRunSamples, List.flatMap_cons, lineFeatureSamples, hx] using this
              | multi parts =>
                  simp only [] at h
                  cases hp : lineFeatureParts ext g engine parts
                      { polls := s.polls + 1, requests := s.requests, results := s.results } with
                  | error e => simp [hp] at h
                  | ok s2 =>
                      simp only [hp] at h
                      have := samplesRecorded_trans
                        (lineFeatureParts_recorded ext g engine parts _ s2 hp) (ih _ _ h)
                      simpa [lineRunSamples, List.flatMap_cons, lineFeatureSamples, hx] using this

theorem generateProfileForPoints_appended (g : Generator) (profileCurve : QgsCurve)
    (engine : QgsGeos) (s : RunState) :
    ∃ n, n ≤ (g.mSource.pointFeatures (.distanceWithin profileCurve g.mTolerance)).length
      ∧ SamplesAppended g s.results (generateProfileForPoints g profileCurve engine s).2.results
          (pointRunSamples g engine
            ((g.mSource.pointFeatures (.distanceWithin profileCurve g.mTolerance)).take n))
      ∧ ((generateProfileForPoints g profileCurve engine s).1 = true →
          n = (g.mSource.pointFeatures (.distanceWithin profileCurve g.mTolerance)).length) :=
  pointFeatureLoop_appended g engine _ _

theorem generateProfileForLines_recorded (ext : Externals) (g : Generator)
    (profileCurve : QgsCurve) (engine : QgsGeos) (s : RunState) (out : Bool × RunState)
    (h : generateProfileForLines ext g profileCurve engine s = .ok out) :
    SamplesRecorded g s.results out.2.results
      (lineRunSamples ext g engine
        (g.mSource.lineFeatures (.filterRect (ext.boundingBox profileCurve)))) :=
  lineFeatureLoop_recorded ext g engine _
    { s with requests := s.requests ++ [.filterRect (ext.boundingBox profileCurve)] } out h

theorem samplesAppended_equal_lengths {g : Generator} {r0 r : QgsVectorLayerProfileResults}
    {l : List Sample} (h : SamplesAppended g r0 r l)
    (h0 : r0.geometries.length = r0.distanceVHeightGeometries.length
      ∧ r0.rawPoints.length = r0.geometries.length) :
    r.geometries.length = r.distanceVHeightGeometries.length
      ∧ r.rawPoints.length = r.geometries.length := by
  obtain ⟨a, b, c⟩ := samplesAppended_lengths h
  omega

/-- C9. In a point run and in a line run every recorded sample appends exactly one
raw point, one 3D geometry and one distance-height geometry, all three built from
that sample, so the three sequences stay index-aligned and, when they start with
equal lengths (as the empty sequences of a new results aggregate do), end with equal
lengths.  The samples of a point run are those of the parts of a leading stretch of
the delivered features, in feature order, and of all the features when the run
returns true.  The samples of a line run that returns are, when no poll observes
cancellation, those of the intersection points of the intersecting curves, in
feature order. -/
theorem point_and_line_runs_record_samples (ext : Externals) (g : Generator)
    (profileCurve : QgsCurve) (engine : QgsGeos) (s : RunState)
    (h0 : s.results.geometries.length = s.results.distanceVHeightGeometries.length
      ∧ s.results.rawPoints.length = s.results.geometries.length) :
    (∃ n, n ≤ (g.mSource.pointFeatures (.distanceWithin profileCurve g.mTolerance)).length
        ∧ SamplesAppended g s.results (generateProfileForPoints g profileCurve engine s).2.results
            (pointRunSamples g engine
              ((g.mSource.pointFeatures (.distanceWithin profileCurve g.mTolerance)).take n))
        ∧ ((generateProfileForPoints g profileCurve engine s).1 = true →
            n = (g.mSource.pointFeatures (.distanceWithin profileCurve g.mTolerance)).length))
      ∧ ((generateProfileForPoints g profileCurve engine s).2.results.geometries.length
            = (generateProfileForPoints g profileCurve engine s).2.results.distanceVHeightGeometries.length
          ∧ (generateProfileForPoints g profileCurve engine s).2.results.rawPoints.length
            = (generateProfileForPoints g profileCurve engine s).2.results.geometries.length)
      ∧ (∀ out, generateProfileForLines ext g profileCurve engine s = .ok out →
          (∃ samples, SamplesAppended g s.results out.2.results samples
            ∧ ((∀ k, g.mFeedback.canceled k = false) →
                samples = lineRunSamples ext g engine
                  (g.mSource.lineFeatures (.filterRect (ext.boundingBox profileCurve)))))
          ∧ out.2.results.geometries.length = out.2.results.distanceVHeightGeometries.length
          ∧ out.2.results.rawPoints.length = out.2.results.geometries.length) := by
  refine ⟨generateProfileForPoints_appended g profileCurve engine s, ?_, ?_⟩
  · obtain ⟨n, _, happ, _⟩ := generateProfileForPoints_appended g profileCurve engine s
    exact samplesAppended_equal_lengths happ h0
  · intro out hout
    obtain ⟨samples, happ, _, hexact⟩ :=
      generateProfileForLines_recorded ext g profileCurve engine s out hout
    exact ⟨⟨samples, happ, hexact⟩, samplesAppended_equal_lengths happ h0⟩

/-- C9, at concrete inputs: the point layer (three point parts) and the line layer
(one crossing) from a new results aggregate. -/
theorem point_and_line_runs_record_samples_witness :
    ((generateProfileForPoints pointLayerGenerator sampleCurve sampleEngine
          sampleRunState).2.results.rawPoints.length = 3
        ∧ (generateProfileForPoints pointLayerGenerator sampleCurve sampleEngine
            sampleRunState).2.results.geometries.length
          = (generateProfileForPoints pointLayerGenerator sampleCurve sampleEngine
            sampleRunState).2.results.distanceVHeightGeometries.length
        ∧ (generateProfileForPoints pointLayerGenerator sampleCurve sampleEngine
            sampleRunState).2.results.rawPoints.length
          = (generateProfileForPoints pointLayerGenerator sampleCurve sampleEngine
            sampleRunState).2.results.geometries.length)
      ∧ ∃ out, generateProfileForLines crossingExternals lineLayerGenerator sampleCurve
            crossingEngine sampleRunState = .ok out
          ∧ out.2.results.rawPoints.length = 1
          ∧ out.2.results.geometries.length = out.2.results.distanceVHeightGeometries.length
          ∧ out.2.results.rawPoints.length = out.2.results.geometries.length :=
  ⟨⟨rfl, (point_and_line_runs_record_samples sampleExternals pointLayerGenerator sampleCurve
      sampleEngine sampleRunState ⟨rfl, rfl⟩).2.1⟩,
   ⟨_, rfl, rfl, ((point_and_line_runs_record_samples crossingExternals lineLayerGenerator
      sampleCurve crossingEngine sampleRunState ⟨rfl, rfl⟩).2.2 _ rfl).2⟩⟩

/-! ## Terrain clamping over a flat terrain -/

theorem qmap_insert_values (P : Dbl → Prop) (k v : Dbl) (hv : P v) :
    ∀ m : QMap, (∀ kv ∈ m, P kv.2) → ∀ kv ∈ QMap.insert k v m, P kv.2 := by
  intro m
  induction m with
  | nil =>
      intro _ kv hkv
      simp only [QMap.insert, List.mem_singleton] at hkv
      subst hkv
      exact hv
  | cons e rest ih =>
      obtain ⟨k0, v0⟩ := e
      intro hm kv hkv
      have hrest : ∀ kv ∈ rest, P kv.2 := fun kv h => hm kv (List.mem_cons_of_mem _ h)
      have hhead : P v0 := hm (k0, v0) (List.mem_cons_self _ _)
      simp only [QMap.insert] at hkv
      split at hkv
      · rcases List.mem_cons.mp hkv with h | h
        · subst h; exact hhead
        · exact ih hrest kv h
      · split at hkv
        · rcases List.mem_cons.mp hkv with h | h
          · subst h; exact hv
          · exact hm kv h
        · rcases List.mem_cons.mp hkv with h | h
          · subst h; exact hv
          · exact hrest kv h

theorem qmap_foldl_insert_values (P : Dbl → Prop) (samples : List Sample)
    (hs : ∀ sm ∈ samples, P sm.height) :
    ∀ m : QMap, (∀ kv ∈ m, P kv.2) →
      ∀ kv ∈ samples.foldl (fun m sm => QMap.insert sm.distance sm.height m) m, P kv.2 := by
  induction samples with
  | nil => intro m hm; simpa using hm
  | cons sm rest ih =>
      intro m hm
      simp only [List.foldl_cons]
      exact ih (fun x hx => hs x (List.mem_cons_of_mem _ hx)) _
        (qmap_insert_values P sm.distance sm.height (hs sm (List.mem_cons_self _ _)) m hm)

theorem samplesAppended_heights {g : Generator} {r0 r : QgsVectorLayerProfileResults}
    {samples : List Sample} (h : SamplesAppended g r0 r samples) (H : Dbl)
    (hs : ∀ sm ∈ samples, sm.height = H)
    (hraw : ∀ p ∈ r0.rawPoints, p.z = H)
    (hmap : ∀ kv ∈ r0.mDistanceToHeightMap, kv.2 = H) :
    (∀ p ∈ r.rawPoints, p.z = H) ∧ (∀ kv ∈ r.mDistanceToHeightMap, kv.2 = H) := by
  obtain ⟨a, _, _, d⟩ := h
  constructor
  · intro p hp
    rw [a] at hp
    rcases List.mem_append.mp hp with h1 | h1
    · exact hraw p h1
    · obtain ⟨sm, hsm, rfl⟩ := List.mem_map.mp h1
      exact hs sm hsm
  · rw [d]
    exact qmap_foldl_insert_values (fun v => v = H) samples hs _ hmap

theorem featureZToHeight_flat_terrain (g : Generator) (provider : QgsAbstractTerrainProvider)
    (T : ℚ) (hclamp : g.mClamping = AltitudeClamping.Terrain)
    (hprov : g.mTerrainProvider = some provider)
    (hT : ∀ x y, provider.heightAt x y = some T)
    (htrans : ∀ x y, ∃ q, g.mTargetToTerrainProviderTransform.transformInPlace x y = .ok q)
    (x y z : Dbl) :
    featureZToHeight g x y z = Dbl.add (Dbl.mul (some T) g.mScale) g.mOffset := by
  obtain ⟨q, hq⟩ := htrans x y
  have ht : terrainHeight g x y = some T := by
    simp [terrainHeight, hprov, hq, hT]
  simp [featureZToHeight, hclamp, ht, isnan]

/-- C4. Under Terrain clamping, with a terrain provider that gives the same height
`T` (not NaN) at every coordinate and a transform into its CRS that never throws,
a point run and a line run record only the height `T * scale + offset`: when the
raw points and the distance-to-height map hold no other height before the run (as
the empty ones of a new results aggregate do), every raw point has this Z and every
value of the map is this height afterwards, whatever the Z of the features. -/
theorem flat_terrain_runs_record_terrain_height (ext : Externals) (g : Generator)
    (provider : QgsAbstractTerrainProvider) (T : ℚ) (profileCurve : QgsCurve)
    (engine : QgsGeos) (s : RunState)
    (hclamp : g.mClamping = AltitudeClamping.Terrain)
    (hprov : g.mTerrainProvider = some provider)
    (hT : ∀ x y, provider.heightAt x y = some T)
    (htrans : ∀ x y, ∃ q, g.mTargetToTerrainProviderTransform.transformInPlace x y = .ok q)
    (hraw : ∀ p ∈ s.results.rawPoints, p.z = Dbl.add (Dbl.mul (some T) g.mScale) g.mOffset)
    (hmap : ∀ kv ∈ s.results.mDistanceToHeightMap,
      kv.2 = Dbl.add (Dbl.mul (some T) g.mScale) g.mOffset) :
    ((∀ p ∈ (generateProfileForPoints g profileCurve engine s).2.results.rawPoints,
          p.z = Dbl.add (Dbl.mul (some T) g.mScale) g.mOffset)
        ∧ (∀ kv ∈ (generateProfileForPoints g profileCurve engine s).2.results.mDistanceToHeightMap,
          kv.2 = Dbl.add (Dbl.mul (some T) g.mScale) g.mOffset))
      ∧ (∀ out, generateProfileForLines ext g profileCurve engine s = .ok out →
          (∀ p ∈ out.2.results.rawPoints, p.z = Dbl.add (Dbl.mul (some T) g.mScale) g.mOffset)
            ∧ (∀ kv ∈ out.2.results.mDistanceToHeightMap,
              kv.2 = Dbl.add (Dbl.mul (some T) g.mScale) g.mOffset)) := by
  have hflat := featureZToHeight_flat_terrain g provider T hclamp hprov hT htrans
  constructor
  · obtain ⟨n, _, happ, _⟩ := generateProfileForPoints_appended g profileCurve engine s
    refine samplesAppended_heights happ _ ?_ hraw hmap
    intro sm hsm
    simp only [pointRunSamples, List.mem_map] at hsm
    obtain ⟨p, _, rfl⟩ := hsm
    exact hflat _ _ _
  · intro out hout
    obtain ⟨samples, happ, hres, _⟩ :=
      generateProfileForLines_recorded ext g profileCurve engine s out hout
    refine samplesAppended_heights happ _ ?_ hraw hmap
    intro sm hsm
    obtain ⟨z, hz⟩ := hres sm hsm
    rw [hz]
    exact hflat _ _ _

/-- C4, at concrete inputs: the point layer (features of Z 5, 2 and 3) and the line
layer (a curve of Z 4) over a terrain of constant height 7, scale 2, offset 1. -/
theorem flat_terrain_runs_record_terrain_height_witness :
    ((generateProfileForPoints pointLayerGenerator sampleCurve sampleEngine
          sampleRunState).2.results.rawPoints.length = 3
        ∧ ∀ p ∈ (generateProfileForPoints pointLayerGenerator sampleCurve sampleEngine
            sampleRunState).2.results.rawPoints,
          p.z = Dbl.add (Dbl.mul (some 7) (some 2)) (some 1))
      ∧ ∃ out, generateProfileForLines crossingExternals lineLayerGenerator sampleCurve
            crossingEngine sampleRunState = .ok out
          ∧ out.2.results.rawPoints.length = 1
          ∧ (∀ p ∈ out.2.results.rawPoints, p.z = Dbl.add (Dbl.mul (some 7) (some 2)) (some 1))
          ∧ (∀ kv ∈ out.2.results.mDistanceToHeightMap,
              kv.2 = Dbl.add (Dbl.mul (some 7) (some 2)) (some 1)) :=
  ⟨⟨rfl, (flat_terrain_runs_record_terrain_height sampleExternals pointLayerGenerator
      (flatTerrain (some 7)) 7 sampleCurve sampleEngine sampleRunState rfl rfl (fun _ _ => rfl)
      (fun _ _ => ⟨_, rfl⟩) (by simp [sampleRunState, QgsVectorLayerProfileResults.fresh])
      (by simp [sampleRunState, QgsVectorLayerProfileResults.fresh])).1.1⟩,
   ⟨_, rfl, rfl, (flat_terrain_runs_record_terrain_height crossingExternals lineLayerGenerator
      (flatTerrain (some 7)) 7 sampleCurve crossingEngine sampleRunState rfl rfl (fun _ _ => rfl)
      (fun _ _ => ⟨_, rfl⟩) (by simp [sampleRunState, QgsVectorLayerProfileResults.fresh])
      (by simp [sampleRunState, QgsVectorLayerProfileResults.fresh])).2 _ rfl⟩⟩

/-! ## The polygon builder -/

theorem clampAltitudesPolygon_exterior_not_lineString (ext : Externals) (g : Generator)
    (polygon : QgsPolygon) (polls : Nat) (h : castLineString polygon.exteriorRing = none) :
    (clampAltitudesPolygon ext g polygon polls).1 = false := by
  have h2 : castLineString (polygon.addZValue (some 0)).exteriorRing = none := by
    unfold castLineString at h ⊢
    unfold QgsPolygon.addZValue
    cases hr : polygon.exteriorRing with
    | none => rfl
    | some c =>
        simp only [hr] at h
        simp only [Option.map_some']
        split at h
        · exact absurd h (by simp)
        · rename_i hk
          simp [hk]
  unfold clampAltitudesPolygon
  cases h3 : polygon.is3D <;> simp [h, h2]

theorem clampInteriorRings_not_lineString (g : Generator) (centroid : QgsPoint)
    (hc : ∀ k, g.mFeedback.canceled k = false) (rings : List QgsCurve) :
    ∀ polls, (∃ c ∈ rings, c.kind ≠ CurveKind.LineString) →
      (clampInteriorRings g centroid rings polls).1 = false := by
  induction rings with
  | nil => intro polls h; simp at h
  | cons c rest ih =>
      intro polls h
      by_cases hk : c.kind = CurveKind.LineString
      · have hrest : ∃ c ∈ rest, c.kind ≠ CurveKind.LineString := by
          obtain ⟨d, hd, hdk⟩ := h
          rcases List.mem_cons.mp hd with h1 | h1
          · subst h1; exact absurd hk hdk
          · exact ⟨d, h1, hdk⟩
        simp only [clampInteriorRings, hc, castLineString, hk, if_true, Bool.false_eq_true,
          if_false]
        exact ih _ hrest
      · simp [clampInteriorRings, hc, castLineString, hk]

/-- C8. On a polygon part whose exterior ring is not a line string
`clampAltitudes( polygon )` returns false, and `processPolygon` goes on all the
same: with a tessellation of one triangle that the profile curve meets in a point
it appends one raw point, one 3D geometry, one distance-to-height entry and one
distance-height part for that polygon. -/
theorem processPolygon_ignores_failed_clamp :
    (clampAltitudesPolygon triangleExternals polygonLayerGenerator compoundRingPolygon 3).1 = false
      ∧ ∃ out, processPolygon triangleExternals polygonLayerGenerator crossingEngine
            (QgsCurvePolygon.polygon compoundRingPolygon) sampleRunState [] = .ok out
          ∧ out.1.results.rawPoints.length = 1
          ∧ out.1.results.geometries.length = 1
          ∧ out.1.results.mDistanceToHeightMap.length = 1
          ∧ out.2.length = 1 :=
  ⟨rfl, _, rfl, rfl, rfl, rfl, rfl⟩

theorem triangleIntersectPoint_parts (ext : Externals) (g : Generator) (engine : QgsGeos)
    (triangle : Triangle) (p : QgsPoint)
    (acc : QgsVectorLayerProfileResults × List QgsGeometry) :
    (triangleIntersectPoint ext g engine triangle p acc).2.length = acc.2.length + 1
      ∧ (triangleIntersectPoint ext g engine triangle p acc).1.distanceVHeightGeometries
          = acc.1.distanceVHeightGeometries := by
  unfold triangleIntersectPoint
  cases he : g.mExtrusionEnabled <;> simp

theorem lineStringVertexLoop_distanceVHeightGeometries (ext : Externals) (g : Generator)
    (engine : QgsGeos) (triangle : Triangle) (ls : List QgsPoint) :
    ∀ (r : QgsVectorLayerProfileResults) (v : LineVectors),
      (lineStringVertexLoop ext g engine triangle ls r v).1.distanceVHeightGeometries
        = r.distanceVHeightGeometries := by
  induction ls with
  | nil => intro r v; rfl
  | cons vertex rest ih =>
      intro r v
      simp only [lineStringVertexLoop]
      rw [ih]
      cases he : g.mExtrusionEnabled <;> simp

theorem triangleIntersectLineString_parts (ext : Externals) (g : Generator) (engine : QgsGeos)
    (triangle : Triangle) (ls : QgsLineString)
    (acc : QgsVectorLayerProfileResults × List QgsGeometry) :
    (triangleIntersectLineString ext g engine triangle ls acc).2.length = acc.2.length + 1
      ∧ (triangleIntersectLineString ext g engine triangle ls acc).1.distanceVHeightGeometries
          = acc.1.distanceVHeightGeometries := by
  unfold triangleIntersectLineString
  cases he : g.mExtrusionEnabled <;>
    simp [lineStringVertexLoop_distanceVHeightGeometries]

theorem triangleIntersectPoint_foldl (ext : Externals) (g : Generator) (engine : QgsGeos)
    (triangle : Triangle) (ps : List QgsPoint) :
    ∀ acc : QgsVectorLayerProfileResults × List QgsGeometry,
      (ps.foldl (fun a p => triangleIntersectPoint ext g engine triangle p a) acc).2.length
          = acc.2.length + ps.length
        ∧ (ps.foldl (fun a p => triangleIntersectPoint ext g engine triangle p a)
            acc).1.distanceVHeightGeometries = acc.1.distanceVHeightGeometries := by
  induction ps with
  | nil => intro acc; simp
  | cons p rest ih =>
      intro acc
      obtain ⟨h1, h2⟩ := ih (triangleIntersectPoint ext g engine triangle p acc)
      obtain ⟨h3, h4⟩ := triangleIntersectPoint_parts ext g engine triangle p acc
      simp only [List.foldl_cons, List.length_cons]
      exact ⟨by omega, by rw [h2, h4]⟩

theorem triangleIntersectLineString_foldl (ext : Externals) (g : Generator) (engine : QgsGeos)
    (triangle : Triangle) (ml : List QgsLineString) :
    ∀ acc : QgsVectorLayerProfileResults × List QgsGeometry,
      (ml.foldl (fun a ls => triangleIntersectLineString ext g engine triangle ls a) acc).2.length
          = acc.2.length + ml.length
        ∧ (ml.foldl (fun a ls => triangleIntersectLineString ext g engine triangle ls a)
            acc).1.distanceVHeightGeometries = acc.1.distanceVHeightGeometries := by
  induction ml with
  | nil => intro acc; simp
  | cons ls rest ih =>
      intro acc
      obtain ⟨h1, h2⟩ := ih (triangleIntersectLineString ext g engine triangle ls acc)
      obtain ⟨h3, h4⟩ := triangleIntersectLineString_parts ext g engine triangle ls acc
      simp only [List.foldl_cons, List.length_cons]
      exact ⟨by omega, by rw [h2, h4]⟩

theorem processTriangleLineIntersect_parts (ext : Externals) (g : Generator) (engine : QgsGeos)
    (triangle : Triangle) (intersect : QgsAbstractGeometry)
    (acc : QgsVectorLayerProfileResults × List QgsGeometry) :
    (processTriangleLineIntersect ext g engine triangle intersect acc).2.length
        = acc.2.length + intersectionPartCount intersect
      ∧ (processTriangleLineIntersect ext g engine triangle intersect acc).1.distanceVHeightGeometries
          = acc.1.distanceVHeightGeometries := by
  cases intersect with
  | point p => exact triangleIntersectPoint_parts ext g engine triangle p acc
  | lineString l => exact triangleIntersectLineString_parts ext g engine triangle l acc
  | polygon e => exact ⟨rfl, rfl⟩
  | multiPoint ps => exact triangleIntersectPoint_foldl ext g engine triangle ps acc
  | multiLineString ls => exact triangleIntersectLineString_foldl ext g engine triangle ls acc
  | multiPolygon ps => exact ⟨rfl, rfl⟩
  | geometryCollection parts => exact ⟨rfl, rfl⟩

theorem triangleLoop_polls (ext : Externals) (g : Generator) (engine : QgsGeos)
    (triangles : List Triangle) :
    ∀ (s : RunState) (tp : List QgsGeometry),
      s.polls ≤ (triangleLoop ext g engine triangles s tp).1.polls
        ∧ (triangleLoop ext g engine triangles s tp).1.results.distanceVHeightGeometries
            = s.results.distanceVHeightGeometries := by
  induction triangles with
  | nil => intro s tp; exact ⟨le_refl _, rfl⟩
  | cons t rest ih =>
      intro s tp
      simp only [triangleLoop, isCanceled]
      cases hc : g.mFeedback.canceled s.polls with
      | true => simp
      | false =>
          simp only [Bool.false_eq_true, if_false]
          cases hx : engine.intersects (.triangle t) with
          | false =>
              simp only [Bool.not_false, if_true]
              obtain ⟨h1, h2⟩ := ih { s with polls := s.polls + 1 } tp
              exact ⟨by simp at h1; omega, h2⟩
          | true =>
              simp only [Bool.not_true, Bool.false_eq_true, if_false]
              cases hi : engine.intersection (.triangle t) with
              | none =>
                  simp only []
                  obtain ⟨h1, h2⟩ := ih { s with polls := s.polls + 1 } tp
                  exact ⟨by simp at h1; omega, h2⟩
              | some i =>
                  simp only []
                  obtain ⟨h1, h2⟩ := ih
                    { polls := s.polls + 1, requests := s.requests,
                      results := (processTriangleLineIntersect ext g engine t i (s.results, tp)).1 }
                    (processTriangleLineIntersect ext g engine t i (s.results, tp)).2
                  refine ⟨by simp at h1; omega, ?_⟩
                  rw [h2]
                  exact (processTriangleLineIntersect_parts ext g engine t i (s.results, tp)).2

theorem triangleLoop_parts (ext : Externals) (g : Generator) (engine : QgsGeos)
    (triangles : List Triangle) :
    ∀ (s : RunState) (tp : List QgsGeometry),
      (∀ k, k < (triangleLoop ext g engine triangles s tp).1.polls →
        g.mFeedback.canceled k = false) →
      (triangleLoop ext g engine triangles s tp).2.length
        = tp.length + (triangles.map (trianglePartCount engine)).sum := by
  induction triangles with
  | nil => intro s tp _; simp [triangleLoop]
  | cons t rest ih =>
      intro s tp hb
      cases hc : g.mFeedback.canceled s.polls with
      | true =>
          have := hb s.polls (by simp [triangleLoop, isCanceled, hc])
          simp [hc] at this
      | false =>
          simp only [triangleLoop, isCanceled, hc, Bool.false_eq_true, if_false] at hb ⊢
          cases hx : engine.intersects (.triangle t) with
          | false =>
              simp only [hx, Bool.not_false, if_true] at hb ⊢
              rw [ih _ _ hb]
              simp [trianglePartCount, hx]
          | true =>
              simp only [hx, Bool.not_true, Bool.false_eq_true, if_false] at hb ⊢
              cases hi : engine.intersection (.triangle t) with
              | none =>
                  simp only [hi] at hb ⊢
                  rw [ih _ _ hb]
                  simp [trianglePartCount, hx, hi]
              | some i =>
                  simp only [hi] at hb ⊢
                  rw [ih _ _ hb,
                    (processTriangleLineIntersect_parts ext g engine t i (s.results, tp)).1]
                  simp [trianglePartCount, hx, hi, Nat.add_assoc]

theorem clampAltitudesLineString_polls (g : Generator) (centroid : QgsPoint)
    (lineString : QgsLineString) :
    ∀ polls, polls ≤ (clampAltitudesLineString g centroid lineString polls).2 := by
  induction lineString with
  | nil => intro polls; exact le_refl _
  | cons p rest ih =>
      intro polls
      simp only [clampAltitudesLineString]
      cases hc : g.mFeedback.canceled polls with
      | true => simp
      | false =>
          simp only [Bool.false_eq_true, if_false]
          have := ih (polls + 1)
          omega

theorem clampAltitudesLineString_bounded (g : Generator) (centroid : QgsPoint)
    (lineString : QgsLineString) :
    ∀ polls,
      (∀ k, k < (clampAltitudesLineString g centroid lineString polls).2 →
        g.mFeedback.canceled k = false) →
      (clampAltitudesLineString g centroid lineString polls).1
        = lineString.map (specClampVertex g centroid) := by
  induction lineString with
  | nil => intro polls _; rfl
  | cons p rest ih =>
      intro polls hb
      cases hc : g.mFeedback.canceled polls with
      | true =>
          have := hb polls (by simp [clampAltitudesLineString, hc])
          simp [hc] at this
      | false =>
          simp only [clampAltitudesLineString, hc, Bool.false_eq_true, if_false] at hb ⊢
          rw [ih _ hb, clampedVertexZ_eq_spec]
          rfl

theorem clampAltitudesLineString_uncanceled (g : Generator) (centroid : QgsPoint)
    (lineString : QgsLineString) (polls : Nat) :
    (clampAltitudesLineString g.uncanceled centroid lineString polls).1
      = lineString.map (specClampVertex g centroid) := by
  rw [clampAltitudesLineString_map g.uncanceled centroid lineString polls (fun _ _ => rfl)]
  rfl

theorem clampInteriorRings_polls (g : Generator) (centroid : QgsPoint)
    (rings : List QgsCurve) :
    ∀ polls, polls ≤ (clampInteriorRings g centroid rings polls).2.2 := by
  induction rings with
  | nil => intro polls; exact le_refl _
  | cons curve rest ih =>
      intro polls
      simp only [clampInteriorRings]
      cases hc : g.mFeedback.canceled polls with
      | true => simp
      | false =>
          simp only [Bool.false_eq_true, if_false]
          cases hk : castLineString (some curve) with
          | none => simp
          | some ls =>
              simp only []
              have h1 := clampAltitudesLineString_polls g centroid ls (polls + 1)
              have h2 := ih (clampAltitudesLineString g centroid ls (polls + 1)).2
              omega

theorem uncanceled_canceled (g : Generator) (k : Nat) :
    g.uncanceled.mFeedback.canceled k = false := rfl

theorem clampInteriorRings_bounded (g : Generator) (centroid : QgsPoint)
    (rings : List QgsCurve) :
    ∀ polls polls0,
      (∀ k, k < (clampInteriorRings g centroid rings polls).2.2 →
        g.mFeedback.canceled k = false) →
      (clampInteriorRings g centroid rings polls).2.1
        = (clampInteriorRings g.uncanceled centroid rings polls0).2.1 := by
  induction rings with
  | nil => intro polls polls0 _; rfl
  | cons curve rest ih =>
      intro polls polls0 hb
      cases hc : g.mFeedback.canceled polls with
      | true =>
          have := hb polls (by simp [clampInteriorRings, hc])
          simp [hc] at this
      | false =>
          simp only [clampInteriorRings, hc, uncanceled_canceled, Bool.false_eq_true,
            if_false] at hb ⊢
          cases hk : castLineString (some curve) with
          | none => simp only [hk]
          | some ls =>
              simp only [hk] at hb ⊢
              have hmono := clampInteriorRings_polls g centroid rest
                (clampAltitudesLineString g centroid ls (polls + 1)).2
              have hline := clampAltitudesLineString_bounded g centroid ls (polls + 1)
                (fun k hk2 => hb k (by omega))
              rw [hline, clampAltitudesLineString_uncanceled,
                ih _ (clampAltitudesLineString g.uncanceled centroid ls (polls0 + 1)).2 hb]

theorem clampAltitudesPolygon_polls (ext : Externals) (g : Generator) (polygon : QgsPolygon)
    (polls : Nat) : polls ≤ (clampAltitudesPolygon ext g polygon polls).2.2 := by
  unfold clampAltitudesPolygon
  simp only []
  generalize (if (!polygon.is3D) = true then polygon.addZValue (some 0) else polygon) = P
  generalize (match g.mBinding with
    | .Vertex => QgsPoint.empty
    | .Centroid => ext.centroid P) = C
  split
  · exact le_refl _
  · rename_i ls _
    simp only []
    exact (clampAltitudesLineString_polls g C ls polls).trans (clampInteriorRings_polls g C _ _)

theorem clampAltitudesPolygon_bounded (ext : Externals) (g : Generator) (polygon : QgsPolygon)
    (polls : Nat)
    (hb : ∀ k, k < (clampAltitudesPolygon ext g polygon polls).2.2 →
      g.mFeedback.canceled k = false) :
    (clampAltitudesPolygon ext g polygon polls).2.1 = clampedPolygon ext g polygon := by
  unfold clampedPolygon
  unfold clampAltitudesPolygon at hb ⊢
  simp only [] at hb ⊢
  have hbind : g.uncanceled.mBinding = g.mBinding := rfl
  rw [hbind]
  generalize (if (!polygon.is3D) = true then polygon.addZValue (some 0) else polygon) = P at hb ⊢
  generalize (match g.mBinding with
    | .Vertex => QgsPoint.empty
    | .Centroid => ext.centroid P) = C at hb ⊢
  cases hls : castLineString P.exteriorRing with
  | none => rfl
  | some ls =>
      simp only [hls] at hb ⊢
      have hmono := clampInteriorRings_polls g C P.interiorRings
        (clampAltitudesLineString g C ls polls).2
      rw [clampAltitudesLineString_bounded g C ls polls (fun k hk2 => hb k (by omega)),
        clampAltitudesLineString_uncanceled,
        clampInteriorRings_bounded g C _ _ (clampAltitudesLineString g.uncanceled C ls 0).2 hb]

theorem processPolygon_polls (ext : Externals) (g : Generator) (engine : QgsGeos)
    (polygon : QgsCurvePolygon) (s : RunState) (tp : List QgsGeometry)
    (out : RunState × List QgsGeometry)
    (h : processPolygon ext g engine polygon s tp = .ok out) :
    s.polls ≤ out.1.polls
      ∧ out.1.results.distanceVHeightGeometries = s.results.distanceVHeightGeometries := by
  cases polygon with
  | curved r => simp [processPolygon] at h
  | polygon p =>
      have hclamp := clampAltitudesPolygon_polls ext g p s.polls
      simp only [processPolygon, isCanceled] at h
      split at h
      · simp only [Except.ok.injEq] at h
        subst h
        exact ⟨by simp; omega, rfl⟩
      · split at h
        · simp only [Except.ok.injEq] at h
          subst h
          exact ⟨by simp; omega, rfl⟩
        · simp only [Except.ok.injEq] at h
          subst h
          obtain ⟨h1, h2⟩ := triangleLoop_polls ext g engine
            (ext.tessellate (clampAltitudesPolygon ext g p s.polls).2.1)
            { polls := (clampAltitudesPolygon ext g p s.polls).2.2 + 1 + 1,
              requests := s.requests, results := s.results } tp
          exact ⟨by simp at h1; omega, h2⟩

theorem processPolygon_parts (ext : Externals) (g : Generator) (engine : QgsGeos)
    (polygon : QgsCurvePolygon) (s : RunState) (tp : List QgsGeometry)
    (out : RunState × List QgsGeometry)
    (h : processPolygon ext g engine polygon s tp = .ok out)
    (hb : ∀ k, k < out.1.polls → g.mFeedback.canceled k = false) :
    out.2.length = tp.length + polygonPartCount ext g engine polygon := by
  cases polygon with
  | curved r => simp [processPolygon] at h
  | polygon p =>
      have hclamp := clampAltitudesPolygon_polls ext g p s.polls
      simp only [processPolygon, isCanceled] at h
      cases hc1 : g.mFeedback.canceled (clampAltitudesPolygon ext g p s.polls).2.2 with
      | true =>
          simp only [hc1, if_true, Except.ok.injEq] at h
          subst h
          have := hb (clampAltitudesPolygon ext g p s.polls).2.2 (by simp)
          simp [hc1] at this
      | false =>
          simp only [hc1, Bool.false_eq_true, if_false] at h
          cases hc2 : g.mFeedback.canceled ((clampAltitudesPolygon ext g p s.polls).2.2 + 1) with
          | true =>
              simp only [hc2, if_true, Except.ok.injEq] at h
              subst h
              have := hb ((clampAltitudesPolygon ext g p s.polls).2.2 + 1) (by simp)
              simp [hc2] at this
          | false =>
              simp only [hc2, Bool.false_eq_true, if_false, Except.ok.injEq] at h
              subst h
              obtain ⟨h1, _⟩ := triangleLoop_polls ext g engine
                (ext.tessellate (clampAltitudesPolygon ext g p s.polls).2.1)
                { polls := (clampAltitudesPolygon ext g p s.polls).2.2 + 1 + 1,
                  requests := s.requests, results := s.results } tp
              have hcl := clampAltitudesPolygon_bounded ext g p s.polls
                (fun k hk => hb k (by simp at h1; omega))
              rw [triangleLoop_parts ext g engine _ _ _ hb, hcl]
              rfl

theorem polygonFeatureParts_polls (ext : Externals) (g : Generator) (engine : QgsGeos)
    (parts : List QgsCurvePolygon) :
    ∀ (s : RunState) (tp : List QgsGeometry) (out : RunState × List QgsGeometry),
      polygonFeatureParts ext g engine parts s tp = .ok out →
      s.polls ≤ out.1.polls
        ∧ out.1.results.distanceVHeightGeometries = s.results.distanceVHeightGeometries := by
  induction parts with
  | nil =>
      intro s tp out h
      simp only [polygonFeatureParts, Except.ok.injEq] at h
      subst h
      exact ⟨le_refl _, rfl⟩
  | cons part rest ih =>
      intro s tp out h
      simp only [polygonFeatureParts, isCanceled] at h
      split at h
      · simp only [Except.ok.injEq] at h
        subst h
        exact ⟨by simp, rfl⟩
      · split at h
        · obtain ⟨h1, h2⟩ := ih _ _ _ h
          exact ⟨by simp at h1; omega, h2⟩
        · cases hp : processPolygon ext g engine part
              { polls := s.polls + 1, requests := s.requests, results := s.results } tp with
          | error e => simp [hp] at h
          | ok o =>
              simp only [hp] at h
              obtain ⟨h1, h2⟩ := ih _ _ _ h
              obtain ⟨h3, h4⟩ := processPolygon_polls ext g engine part _ tp o hp
              exact ⟨by simp at h3; omega, by rw [h2, h4]⟩

theorem polygonFeatureParts_parts (ext : Externals) (g : Generator) (engine : QgsGeos)
    (parts : List QgsCurvePolygon) :
    ∀ (s : RunState) (tp : List QgsGeometry) (out : RunState × List QgsGeometry),
      polygonFeatureParts ext g engine parts s tp = .ok out →
      (∀ k, k < out.1.polls → g.mFeedback.canceled k = false) →
      out.2.length = tp.length +
        ((parts.filter (fun p => engine.intersects (.curvePolygon p))).map
          (polygonPartCount ext g engine)).sum := by
  induction parts with
  | nil =>
      intro s tp out h _
      simp only [polygonFeatureParts, Except.ok.injEq] at h
      subst h
      simp
  | cons part rest ih =>
      intro s tp out h hb
      simp only [polygonFeatureParts, isCanceled] at h
      cases hc : g.mFeedback.canceled s.polls with
      | true =>
          simp only [hc, if_true, Except.ok.injEq] at h
          subst h
          have := hb s.polls (by simp)
          simp [hc] at this
      | false =>
          simp only [hc, Bool.false_eq_true, if_false] at h
          cases hx : engine.intersects (.curvePolygon part) with
          | false =>
              simp only [hx, Bool.not_false, if_true] at h
              rw [ih _ _ _ h hb]
              simp [List.filter_cons, hx]
          | true =>
              simp only [hx, Bool.not_true, Bool.false_eq_true, if_false] at h
              cases hp : processPolygon ext g engine part
                  { polls := s.polls + 1, requests := s.requests, results := s.results } tp with
              | error e => simp [hp] at h
              | ok o =>
                  simp only [hp] at h
                  obtain ⟨h1, _⟩ := polygonFeatureParts_polls ext g engine rest _ _ _ h
                  rw [ih _ _ _ h hb,
                    processPolygon_parts ext g engine part _ tp o hp (fun k hk => hb k (by omega))]
                  simp [List.filter_cons, hx, Nat.add_assoc]

theorem polygonFeature_processed (ext : Externals) (g : Generator) (engine : QgsGeos)
    (f : PolygonFeature) (s : RunState) (o : RunState × List QgsGeometry)
    (h : (match f with
          | .multi parts => polygonFeatureParts ext g engine parts s []
          | .single p => processPolygon ext g engine p s []) = .ok o)
    (hx : engine.intersects (.polygonFeature f) = true)
    (hb : ∀ k, k < o.1.polls → g.mFeedback.canceled k = false) :
    o.2.length = featurePartCount ext g engine f
      ∧ o.1.results.distanceVHeightGeometries = s.results.distanceVHeightGeometries := by
  cases f with
  | single p =>
      simp only [] at h
      refine ⟨?_, (processPolygon_polls ext g engine p s [] o h).2⟩
      rw [processPolygon_parts ext g engine p s [] o h hb]
      simp [featurePartCount, hx]
  | multi parts =>
      simp only [] at h
      refine ⟨?_, (polygonFeatureParts_polls ext g engine parts s [] o h).2⟩
      rw [polygonFeatureParts_parts ext g engine parts s [] o h hb]
      simp [featurePartCount, hx]

theorem polygonFeatureLoop_count (ext : Externals) (g : Generator) (engine : QgsGeos)
    (hmono : ∀ j k, j ≤ k → g.mFeedback.canceled j = true → g.mFeedback.canceled k = true)
    (features : List PolygonFeature) :
    ∀ s s1 : RunState, polygonFeatureLoop ext g engine features s = .ok (true, s1) →
      s1.results.distanceVHeightGeometries.length
        = s.results.distanceVHeightGeometries.length
          + features.countP (fun f => decide (0 < featurePartCount ext g engine f)) := by
  induction features with
  | nil =>
      intro s s1 h
      simp only [polygonFeatureLoop, Except.ok.injEq, Prod.mk.injEq, true_and] at h
      subst h
      simp
  | cons f rest ih =>
      intro s s1 h
      simp only [polygonFeatureLoop, isCanceled] at h
      cases hc : g.mFeedback.canceled s.polls with
      | true => simp [hc] at h
      | false =>
          simp only [hc, Bool.false_eq_true, if_false] at h
          cases hx : engine.intersects (.polygonFeature f) with
          | false =>
              simp only [hx, Bool.not_false, if_true] at h
              rw [ih _ _ h]
              simp [List.countP_cons, featurePartCount, hx]
          | true =>
              simp only [hx, Bool.not_true, Bool.false_eq_true, if_false] at h
              cases hp : (match f with
                  | .multi parts => polygonFeatureParts ext g engine parts
                      { polls := s.polls + 1, requests := s.requests, results := s.results } []
                  | .single p => processPolygon ext g engine p
                      { polls := s.polls + 1, requests := s.requests, results := s.results } []) with
              | error e => simp [hp] at h
              | ok o =>
                  simp only [hp] at h
                  cases hc2 : g.mFeedback.canceled o.1.polls with
                  | true => simp [hc2] at h
                  | false =>
                      simp only [hc2, Bool.false_eq_true, if_false] at h
                      have hb : ∀ k, k < o.1.polls → g.mFeedback.canceled k = false := by
                        intro k hk
                        cases hck : g.mFeedback.canceled k with
                        | false => rfl
                        | true =>
                            have := hmono k o.1.polls (Nat.le_of_lt hk) hck
                            simp [hc2] at this
                      obtain ⟨hlen, hdvh⟩ := polygonFeature_processed ext g engine f _ o hp hx hb
                      cases hempty : o.2.isEmpty with
                      | true =>
                          simp only [hempty, Bool.not_true, Bool.false_eq_true, if_false] at h
                          have h0 : featurePartCount ext g engine f = 0 := by
                            rw [← hlen]
                            simpa [List.isEmpty_iff] using hempty
                          rw [ih _ _ h]
                          simp [List.countP_cons, h0, hdvh]
                      | false =>
                          simp only [hempty, Bool.not_false, if_true] at h
                          have h0 : 0 < featurePartCount ext g engine f := by
                            rw [← hlen]
                            cases ho : o.2 with
                            | nil => simp [ho] at hempty
                            | cons a b => simp
                          rw [ih _ _ h]
                          simp [List.countP_cons, h0, hdvh, Nat.add_assoc, Nat.add_comm]

theorem sum_map_eq_zero {α : Type} (f : α → Nat) (l : List α)
    (h : ∀ x ∈ l, f x = 0) : (l.map f).sum = 0 := by
  induction l with
  | nil => rfl
  | cons a rest ih =>
      simp only [List.map_cons, List.sum_cons]
      rw [h a (List.mem_cons_self _ _), ih (fun x hx => h x (List.mem_cons_of_mem _ hx))]

theorem polygonPartCount_eq_zero (ext : Externals) (g : Generator) (engine : QgsGeos)
    (p : QgsCurvePolygon) (h : polygonHasIntersectingTriangle ext g engine p = false) :
    polygonPartCount ext g engine p = 0 := by
  cases p with
  | curved r => rfl
  | polygon q =>
      simp only [polygonHasIntersectingTriangle, List.any_eq_false] at h
      simp only [polygonPartCount]
      apply sum_map_eq_zero
      intro t ht
      have := h t ht
      simp [trianglePartCount, this]

theorem featurePartCount_eq_zero (ext : Externals) (g : Generator) (engine : QgsGeos)
    (f : PolygonFeature) (h : featureHasIntersectingTriangle ext g engine f = false) :
    featurePartCount ext g engine f = 0 := by
  unfold featurePartCount
  unfold featureHasIntersectingTriangle at h
  cases hx : engine.intersects (.polygonFeature f) with
  | false => simp
  | true =>
      simp only [hx, Bool.true_and] at h
      simp only [if_true]
      cases f with
      | single p => exact polygonPartCount_eq_zero ext g engine p h
      | multi parts =>
          simp only [List.any_eq_false] at h
          simp only []
          apply sum_map_eq_zero
          intro p hp
          obtain ⟨hp1, hp2⟩ := List.mem_filter.mp hp
          have := h p hp1
          simp only [hp2, Bool.true_and] at this
          exact polygonPartCount_eq_zero ext g engine p (by simpa using this)

/-- C10, refuted as stated: the polygon run over one feature whose only triangle
intersects the profile curve in a geometry collection (a point and a segment)
returns true and appends no distance-height geometry, although the feature produced
a triangle that intersects the curve. -/
theorem polygon_run_drops_collection_intersection :
    ∃ out, generateProfileForPolygons collectionExternals polygonRunGenerator sampleCurve
          collectionEngine sampleRunState = .ok out
      ∧ out.1 = true
      ∧ out.2.results.distanceVHeightGeometries.length = 0
      ∧ (polygonRunGenerator.mSource.polygonFeatures
            (.filterRect (collectionExternals.boundingBox sampleCurve))).countP
          (featureHasIntersectingTriangle collectionExternals polygonRunGenerator collectionEngine)
          = 1 :=
  ⟨_, rfl, rfl, rfl, rfl⟩

/-- C10, amended. With a cancellation flag that stays set once it is set, after a
polygon run that returns true the run has appended one distance-height geometry for
every delivered feature that yields at least one distance-height part (a point or
a line string in the intersection, as the engine gives it, of an intersecting
triangle of an intersecting part with the profile curve) and none for any other
feature; a feature without a triangle that intersects the curve yields no part. -/
theorem polygon_run_counts_features_with_parts (ext : Externals) (g : Generator)
    (profileCurve : QgsCurve) (engine : QgsGeos) (s s1 : RunState)
    (hmono : ∀ j k, j ≤ k → g.mFeedback.canceled j = true → g.mFeedback.canceled k = true)
    (hrun : generateProfileForPolygons ext g profileCurve engine s = .ok (true, s1)) :
    s1.results.distanceVHeightGeometries.length
        = s.results.distanceVHeightGeometries.length
          + (g.mSource.polygonFeatures (.filterRect (ext.boundingBox profileCurve))).countP
              (fun f => decide (0 < featurePartCount ext g engine f))
      ∧ ∀ f, featureHasIntersectingTriangle ext g engine f = false →
          featurePartCount ext g engine f = 0 :=
  ⟨polygonFeatureLoop_count ext g engine hmono _
      { s with requests := s.requests ++ [.filterRect (ext.boundingBox profileCurve)] } s1 hrun,
    featurePartCount_eq_zero ext g engine⟩

/-- C10 amended, at a concrete input: the polygon run over one feature whose only
triangle intersects the profile curve in a point appends one distance-height
geometry. -/
theorem polygon_run_counts_features_with_parts_witness :
    ∃ s1, generateProfileForPolygons triangleExternals polygonRunGenerator sampleCurve
          crossingEngine sampleRunState = .ok (true, s1)
      ∧ s1.results.distanceVHeightGeometries.length = 0 + 1 :=
  ⟨_, rfl, (polygon_run_counts_features_with_parts triangleExternals polygonRunGenerator
    sampleCurve crossingEngine sampleRunState _ (fun _ _ _ h => by simp [polygonRunGenerator, sampleGenerator, neverCanceled] at h) rfl).1⟩

/-! ## The Z range invariant -/

theorem stdMin_some (m : ℚ) (x : Dbl) :
    ∃ m1, stdMin (some m) x = some m1 ∧ m1 ≤ m ∧ ∀ h, x = some h → m1 ≤ h := by
  cases x with
  | none => exact ⟨m, rfl, le_refl _, fun h hh => by simp at hh⟩
  | some v =>
      by_cases hlt : v < m
      · refine ⟨v, by simp [stdMin, Dbl.lt, hlt], le_of_lt hlt, ?_⟩
        intro h hh
        simp only [Option.some.injEq] at hh
        rw [hh]
      · refine ⟨m, by simp [stdMin, Dbl.lt, hlt], le_refl _, ?_⟩
        intro h hh
        simp only [Option.some.injEq] at hh
        rw [← hh]
        exact not_lt.mp hlt

theorem stdMax_some (M : ℚ) (x : Dbl) :
    ∃ M1, stdMax (some M) x = some M1 ∧ M ≤ M1 ∧ ∀ h, x = some h → h ≤ M1 := by
  cases x with
  | none => exact ⟨M, rfl, le_refl _, fun h hh => by simp at hh⟩
  | some v =>
      by_cases hlt : M < v
      · refine ⟨v, by simp [stdMax, Dbl.lt, hlt], le_of_lt hlt, ?_⟩
        intro h hh
        simp only [Option.some.injEq] at hh
        rw [hh]
      · refine ⟨M, by simp [stdMax, Dbl.lt, hlt], le_refl _, ?_⟩
        intro h hh
        simp only [Option.some.injEq] at hh
        rw [← hh]
        exact not_lt.mp hlt

theorem zRangeKept_refl (g : Generator) (r : QgsVectorLayerProfileResults) :
    ZRangeKept g r r :=
  ⟨fun m0 M0 h1 h2 => ⟨m0, M0, h1, h2, le_refl _, le_refl _⟩, fun h => h⟩

theorem zRangeKept_trans (g : Generator) (r0 r1 r2 : QgsVectorLayerProfileResults)
    (h1 : ZRangeKept g r0 r1) (h2 : ZRangeKept g r1 r2) : ZRangeKept g r0 r2 := by
  refine ⟨?_, fun h => h2.2 (h1.2 h)⟩
  intro m0 M0 hm hM
  obtain ⟨m1, M1, hm1, hM1, a1, b1⟩ := h1.1 m0 M0 hm hM
  obtain ⟨m2, M2, hm2, hM2, a2, b2⟩ := h2.1 m1 M1 hm1 hM1
  exact ⟨m2, M2, hm2, hM2, le_trans a2 a1, le_trans b1 b2⟩

theorem zRangeKept_of_eq (g : Generator) (r r1 : QgsVectorLayerProfileResults)
    (hraw : r1.rawPoints = r.rawPoints) (hmin : r1.minZ = r.minZ) (hmax : r1.maxZ = r.maxZ) :
    ZRangeKept g r r1 := by
  constructor
  · intro m0 M0 hm hM
    exact ⟨m0, M0, by rw [hmin, hm], by rw [hmax, hM], le_refl _, le_refl _⟩
  · rintro ⟨m, M, hm, hM, hall⟩
    exact ⟨m, M, by rw [hmin, hm], by rw [hmax, hM], by rw [hraw]; exact hall⟩

theorem zRange_step_bounds (g : Generator) (r r1 : QgsVectorLayerProfileResults)
    (p : QgsPoint)
    (hmin : r1.minZ = if g.mExtrusionEnabled then
        stdMin (stdMin r.minZ p.z) (Dbl.add p.z g.mExtrusionHeight) else stdMin r.minZ p.z)
    (hmax : r1.maxZ = if g.mExtrusionEnabled then
        stdMax (stdMax r.maxZ p.z) (Dbl.add p.z g.mExtrusionHeight) else stdMax r.maxZ p.z)
    (m M : ℚ) (hm : r.minZ = some m) (hM : r.maxZ = some M) :
    ∃ m1 M1, r1.minZ = some m1 ∧ r1.maxZ = some M1 ∧ m1 ≤ m ∧ M ≤ M1
      ∧ ∀ h, p.z = some h →
          (m1 ≤ h ∧ h ≤ M1)
            ∧ (g.mExtrusionEnabled = true → ∀ e, g.mExtrusionHeight = some e →
                m1 ≤ h + e ∧ h + e ≤ M1) := by
  obtain ⟨a, ha, ha1, ha2⟩ := stdMin_some m p.z
  obtain ⟨b, hb, hb1, hb2⟩ := stdMax_some M p.z
  cases he : g.mExtrusionEnabled with
  | false =>
      refine ⟨a, b, ?_, ?_, ha1, hb1, ?_⟩
      · rw [hmin, hm, he]; simpa using ha
      · rw [hmax, hM, he]; simpa using hb
      · intro h hh
        exact ⟨⟨ha2 h hh, hb2 h hh⟩, fun hc => by simp at hc⟩
  | true =>
      obtain ⟨a2, ha3, ha4, ha5⟩ := stdMin_some a (Dbl.add p.z g.mExtrusionHeight)
      obtain ⟨b2, hb3, hb4, hb5⟩ := stdMax_some b (Dbl.add p.z g.mExtrusionHeight)
      refine ⟨a2, b2, ?_, ?_, le_trans ha4 ha1, le_trans hb1 hb4, ?_⟩
      · rw [hmin, hm, he, if_pos rfl, ha, ha3]
      · rw [hmax, hM, he, if_pos rfl, hb, hb3]
      · intro h hh
        refine ⟨⟨le_trans ha4 (ha2 h hh), le_trans (hb2 h hh) hb4⟩, ?_⟩
        intro _ e hee
        have hadd : Dbl.add p.z g.mExtrusionHeight = some (h + e) := by
          rw [hh, hee]; rfl
        exact ⟨ha5 _ hadd, hb5 _ hadd⟩

theorem zRangeKept_step (g : Generator) (r r1 : QgsVectorLayerProfileResults) (p : QgsPoint)
    (hraw : r1.rawPoints = r.rawPoints ++ [p])
    (hmin : r1.minZ = if g.mExtrusionEnabled then
        stdMin (stdMin r.minZ p.z) (Dbl.add p.z g.mExtrusionHeight) else stdMin r.minZ p.z)
    (hmax : r1.maxZ = if g.mExtrusionEnabled then
        stdMax (stdMax r.maxZ p.z) (Dbl.add p.z g.mExtrusionHeight) else stdMax r.maxZ p.z) :
    ZRangeKept g r r1 := by
  constructor
  · intro m0 M0 hm hM
    obtain ⟨m1, M1, h1, h2, h3, h4, _⟩ := zRange_step_bounds g r r1 p hmin hmax m0 M0 hm hM
    exact ⟨m1, M1, h1, h2, h3, h4⟩
  · rintro ⟨m, M, hm, hM, hall⟩
    obtain ⟨m1, M1, h1, h2, h3, h4, hnew⟩ := zRange_step_bounds g r r1 p hmin hmax m M hm hM
    refine ⟨m1, M1, h1, h2, ?_⟩
    intro q hq h hh
    rw [hraw] at hq
    rcases List.mem_append.mp hq with hold | hq1
    · obtain ⟨⟨c1, c2⟩, c3⟩ := hall q hold h hh
      refine ⟨⟨le_trans h3 c1, le_trans c2 h4⟩, ?_⟩
      intro hx e hee
      obtain ⟨d1, d2⟩ := c3 hx e hee
      exact ⟨le_trans h3 d1, le_trans d2 h4⟩
    · simp only [List.mem_singleton] at hq1
      subst hq1
      exact hnew h hh

theorem recordSample_zRange (g : Generator) (sm : Sample) (r : QgsVectorLayerProfileResults) :
    ZRangeKept g r (recordSample g sm r) := by
  apply zRangeKept_step g r (recordSample g sm r) ⟨sm.x, sm.y, sm.height⟩
  · unfold recordSample
    cases he : g.mExtrusionEnabled <;> simp
  · unfold recordSample
    cases he : g.mExtrusionEnabled <;> simp
  · unfold recordSample
    cases he : g.mExtrusionEnabled <;> simp

theorem triangleIntersectPoint_zRange (ext : Externals) (g : Generator) (engine : QgsGeos)
    (triangle : Triangle) (p : QgsPoint)
    (acc : QgsVectorLayerProfileResults × List QgsGeometry) :
    ZRangeKept g acc.1 (triangleIntersectPoint ext g engine triangle p acc).1 := by
  apply zRangeKept_step g acc.1 _ (interpolatePointOnTriangle ext triangle p.x p.y)
  · unfold triangleIntersectPoint
    cases he : g.mExtrusionEnabled <;> simp
  · unfold triangleIntersectPoint
    cases he : g.mExtrusionEnabled <;> simp
  · unfold triangleIntersectPoint
    cases he : g.mExtrusionEnabled <;> simp

theorem lineStringVertexLoop_zRange (ext : Externals) (g : Generator) (engine : QgsGeos)
    (triangle : Triangle) (ls : List QgsPoint) :
    ∀ (r : QgsVectorLayerProfileResults) (v : LineVectors),
      ZRangeKept g r (lineStringVertexLoop ext g engine triangle ls r v).1 := by
  induction ls with
  | nil => intro r v; exact zRangeKept_refl g r
  | cons vertex rest ih =>
      intro r v
      simp only [lineStringVertexLoop]
      refine zRangeKept_trans g r _ _ ?_ (ih _ _)
      apply zRangeKept_step g r _ (interpolatePointOnTriangle ext triangle vertex.x vertex.y)
      · cases he : g.mExtrusionEnabled <;> simp
      · cases he : g.mExtrusionEnabled <;> simp
      · cases he : g.mExtrusionEnabled <;> simp

theorem triangleIntersectLineString_zRange (ext : Externals) (g : Generator) (engine : QgsGeos)
    (triangle : Triangle) (ls : QgsLineString)
    (acc : QgsVectorLayerProfileResults × List QgsGeometry) :
    ZRangeKept g acc.1 (triangleIntersectLineString ext g engine triangle ls acc).1 := by
  refine zRangeKept_trans g acc.1
    (lineStringVertexLoop ext g engine triangle ls acc.1 ⟨[], [], [], [], []⟩).1 _
    (lineStringVertexLoop_zRange ext g engine triangle ls acc.1 _) ?_
  apply zRangeKept_of_eq
  · unfold triangleIntersectLineString
    cases he : g.mExtrusionEnabled <;> simp
  · unfold triangleIntersectLineString
    cases he : g.mExtrusionEnabled <;> simp
  · unfold triangleIntersectLineString
    cases he : g.mExtrusionEnabled <;> simp

/-! ## Relations every step of a builder keeps -/

theorem processPoint_foldl_rel (g : Generator) (engine : QgsGeos)
    (R : QgsVectorLayerProfileResults → QgsVectorLayerProfileResults → Prop)
    (hrefl : ∀ r, R r r) (htrans : ∀ a b c, R a b → R b c → R a c)
    (hstep : ∀ sm r, R r (recordSample g sm r)) (points : List QgsPoint) :
    ∀ r, R r (points.foldl (fun acc p => processPoint g engine p acc) r) := by
  induction points with
  | nil => intro r; exact hrefl r
  | cons p rest ih =>
      intro r
      simp only [List.foldl_cons]
      exact htrans _ _ _ (hstep (pointSample g engine p) r) (ih _)

theorem pointFeatureLoop_rel (g : Generator) (engine : QgsGeos)
    (R : QgsVectorLayerProfileResults → QgsVectorLayerProfileResults → Prop)
    (hrefl : ∀ r, R r r) (htrans : ∀ a b c, R a b → R b c → R a c)
    (hstep : ∀ sm r, R r (recordSample g sm r)) (features : List PointFeature) :
    ∀ s : RunState, R s.results (pointFeatureLoop g engine features s).2.results := by
  induction features with
  | nil => intro s; exact hrefl _
  | cons f rest ih =>
      intro s
      cases hc : g.mFeedback.canceled s.polls with
      | true =>
          simp only [pointFeatureLoop, isCanceled, hc, if_true]
          exact hrefl _
      | false =>
          cases f with
          | single p =>
              simp only [pointFeatureLoop, isCanceled, hc, Bool.false_eq_true, if_false]
              have h1 : R s.results (processPoint g engine p s.results) := by
                rw [processPoint_eq_recordSample]
                exact hstep _ _
              exact htrans _ _ _ h1
                (ih { polls := s.polls + 1, requests := s.requests,
                      results := processPoint g engine p s.results })
          | multi parts =>
              simp only [pointFeatureLoop, isCanceled, hc, Bool.false_eq_true, if_false]
              exact htrans _ _ _
                (processPoint_foldl_rel g engine R hrefl htrans hstep parts s.results)
                (ih { polls := s.polls + 1, requests := s.requests,
                      results := parts.foldl (fun acc p => processPoint g engine p acc) s.results })

theorem processCurveParts_rel (ext : Externals) (g : Generator) (engine : QgsGeos)
    (R : QgsVectorLayerProfileResults → QgsVectorLayerProfileResults → Prop)
    (hrefl : ∀ r, R r r) (htrans : ∀ a b c, R a b → R b c → R a c)
    (hstep : ∀ sm r, R r (recordSample g sm r))
    (curve : QgsCurve) (curveGeos : QgsGeos) (parts : List QgsAbstractGeometry) :
    ∀ s s1 : RunState,
      processCurveParts ext g engine curve curveGeos parts s = .ok s1 →
      R s.results s1.results := by
  induction parts with
  | nil =>
      intro s s1 h
      simp only [processCurveParts, Except.ok.injEq] at h
      subst h
      exact hrefl _
  | cons part rest ih =>
      intro s s1 h
      cases hc : g.mFeedback.canceled s.polls with
      | true =>
          have hs : s1 = { s with polls := s.polls + 1 } := by
            cases part <;> simp [processCurveParts, isCanceled, hc] at h <;> exact h.symm
          subst hs
          exact hrefl _
      | false =>
          by_cases hp : ∃ p, part = .point p
          · obtain ⟨ip, rfl⟩ := hp
            rw [processCurveParts_point] at h
            simp only [hc, Bool.false_eq_true, if_false] at h
            cases hq : ext.interpolatePoint curve ((curveGeos.lineLocatePoint ip).distance) with
            | none => simp [hq] at h
            | some q =>
                simp only [hq] at h
                exact htrans _ _ _ (hstep _ s.results)
                  (ih { polls := s.polls + 1, requests := s.requests,
                        results := recordSample g
                          ⟨q.x, q.y, featureZToHeight g q.x q.y q.z,
                            (engine.lineLocatePoint q).distance⟩ s.results } s1 h)
          · have hp2 : ∀ p, part ≠ .point p := fun p hpp => hp ⟨p, hpp⟩
            obtain ⟨heq, _⟩ := processCurveParts_other ext g engine curve curveGeos
              part rest s hp2
            rw [heq] at h
            simp only [hc, Bool.false_eq_true, if_false] at h
            exact ih { polls := s.polls + 1, requests := s.requests, results := s.results } s1 h

theorem processCurve_rel (ext : Externals) (g : Generator) (engine : QgsGeos)
    (R : QgsVectorLayerProfileResults → QgsVectorLayerProfileResults → Prop)
    (hrefl : ∀ r, R r r) (htrans : ∀ a b c, R a b → R b c → R a c)
    (hstep : ∀ sm r, R r (recordSample g sm r))
    (curve : QgsCurve) (s s1 : RunState)
    (h : processCurve ext g engine curve s = .ok s1) : R s.results s1.results := by
  unfold processCurve at h
  cases hi : engine.intersection (.curve curve) with
  | none =>
      simp only [hi, Except.ok.injEq] at h
      subst h
      exact hrefl _
  | some intersection =>
      simp only [hi, isCanceled] at h
      cases hc : g.mFeedback.canceled s.polls with
      | true =>
          simp only [hc, if_true, Except.ok.injEq] at h
          subst h
          exact hrefl _
      | false =>
          simp only [hc, Bool.false_eq_true, if_false] at h
          cases hc2 : g.mFeedback.canceled (s.polls + 1) with
          | true =>
              simp only [hc2, if_true, Except.ok.injEq] at h
              subst h
              exact hrefl _
          | false =>
              simp only [hc2, Bool.false_eq_true, if_false] at h
              exact processCurveParts_rel ext g engine R hrefl htrans hstep curve _
                intersection.parts
                { polls := s.polls + 1 + 1, requests := s.requests, results := s.results } s1 h

theorem lineFeatureParts_rel (ext : Externals) (g : Generator) (engine : QgsGeos)
    (R : QgsVectorLayerProfileResults → QgsVectorLayerProfileResults → Prop)
    (hrefl : ∀ r, R r r) (htrans : ∀ a b c, R a b → R b c → R a c)
    (hstep : ∀ sm r, R r (recordSample g sm r)) (parts : List QgsCurve) :
    ∀ s s1 : RunState, lineFeatureParts ext g engine parts s = .ok s1 →
      R s.results s1.results := by
  induction parts with
  | nil =>
      intro s s1 h
      simp only [lineFeatureParts, Except.ok.injEq] at h
      subst h
      exact hrefl _
  | cons part rest ih =>
      intro s s1 h
      cases hx : engine.intersects (.curve part) with
      | false =>
          simp only [lineFeatureParts, hx, Bool.not_false, if_true] at h
          exact ih s s1 h
      | true =>
          simp only [lineFeatureParts, hx, Bool.not_true, Bool.false_eq_true, if_false] at h
          cases hp : processCurve ext g engine part s with
          | error e => simp [hp] at h
          | ok s2 =>
              simp only [hp] at h
              exact htrans _ _ _
                (processCurve_rel ext g engine R hrefl htrans hstep part s s2 hp) (ih s2 s1 h)

theorem lineFeatureLoop_rel (ext : Externals) (g : Generator) (engine : QgsGeos)
    (R : QgsVectorLayerProfileResults → QgsVectorLayerProfileResults → Prop)
    (hrefl : ∀ r, R r r) (htrans : ∀ a b c, R a b → R b c → R a c)
    (hstep : ∀ sm r, R r (recordSample g sm r)) (features : List LineFeature) :
    ∀ (s : RunState) (out : Bool × RunState),
      lineFeatureLoop ext g engine features s = .ok out → R s.results out.2.results := by
  induction features with
  | nil =>
      intro s out h
      simp only [lineFeatureLoop, Except.ok.injEq] at h
      subst h
      exact hrefl _
  | cons f rest ih =>
      intro s out h
      cases hc : g.mFeedback.canceled s.polls with
      | true =>
          simp only [lineFeatureLoop, isCanceled, hc, if_true, Except.ok.injEq] at h
          subst h
          exact hrefl _
      | false =>
          simp only [lineFeatureLoop, isCanceled, hc, Bool.false_eq_true, if_false] at h
          cases hx : engine.intersects (.lineFeature f) with
          | false =>
              simp only [hx, Bool.not_false, if_true] at h
              exact ih { polls := s.polls + 1, requests := s.requests, results := s.results } out h
          | true =>
              simp only [hx, Bool.not_true, Bool.false_eq_true, if_false] at h
              cases f with
              | single c =>
                  simp only [] at h
                  cases hp : processCurve ext g engine c
                      { polls := s.polls + 1, requests := s.requests, results := s.results } with
                  | error e => simp [hp] at h
                  | ok s2 =>
                      simp only [hp] at h
                      exact htrans _ _ _
                        (processCurve_rel ext g engine R hrefl htrans hstep c
                          { polls := s.polls + 1, requests := s.requests, results := s.results }
                          s2 hp) (ih s2 out h)
              | multi parts =>
                  simp only [] at h
                  cases hp : lineFeatureParts ext g engine parts
                      { polls := s.polls + 1, requests := s.requests, results := s.results } with
                  | error e => simp [hp] at h
                  | ok s2 =>
                      simp only [hp] at h
                      exact htrans _ _ _
                        (lineFeatureParts_rel ext g engine R hrefl htrans hstep parts
                          { polls := s.polls + 1, requests := s.requests, results := s.results }
                          s2 hp) (ih s2 out h)

theorem processTriangleLineIntersect_rel (ext : Externals) (g : Generator) (engine : QgsGeos)
    (R : QgsVectorLayerProfileResults → QgsVectorLayerProfileResults → Prop)
    (hrefl : ∀ r, R r r) (htrans : ∀ a b c, R a b → R b c → R a c)
    (hpoint : ∀ t p acc, R acc.1 (triangleIntersectPoint ext g engine t p acc).1)
    (hline : ∀ t ls acc, R acc.1 (triangleIntersectLineString ext g engine t ls acc).1)
    (triangle : Triangle) (intersect : QgsAbstractGeometry)
    (acc : QgsVectorLayerProfileResults × List QgsGeometry) :
    R acc.1 (processTriangleLineIntersect ext g engine triangle intersect acc).1 := by
  have hfoldp : ∀ (ps : List QgsPoint) (a : QgsVectorLayerProfileResults × List QgsGeometry),
      R a.1 (ps.foldl (fun a p => triangleIntersectPoint ext g engine triangle p a) a).1 := by
    intro ps
    induction ps with
    | nil => intro a; exact hrefl _
    | cons p rest ih =>
        intro a
        simp only [List.foldl_cons]
        exact htrans _ _ _ (hpoint triangle p a)
          (ih (triangleIntersectPoint ext g engine triangle p a))
  have hfoldl : ∀ (ml : List QgsLineString) (a : QgsVectorLayerProfileResults × List QgsGeometry),
      R a.1 (ml.foldl (fun a ls => triangleIntersectLineString ext g engine triangle ls a) a).1 := by
    intro ml
    induction ml with
    | nil => intro a; exact hrefl _
    | cons ls rest ih =>
        intro a
        simp only [List.foldl_cons]
        exact htrans _ _ _ (hline triangle ls a)
          (ih (triangleIntersectLineString ext g engine triangle ls a))
  cases intersect with
  | point p => exact hpoint triangle p acc
  | lineString l => exact hline triangle l acc
  | polygon e => exact hrefl _
  | multiPoint ps => exact hfoldp ps acc
  | multiLineString ls => exact hfoldl ls acc
  | multiPolygon ps => exact hrefl _
  | geometryCollection parts => exact hrefl _

theorem triangleLoop_rel (ext : Externals) (g : Generator) (engine : QgsGeos)
    (R : QgsVectorLayerProfileResults → QgsVectorLayerProfileResults → Prop)
    (hrefl : ∀ r, R r r) (htrans : ∀ a b c, R a b → R b c → R a c)
    (hpoint : ∀ t p acc, R acc.1 (triangleIntersectPoint ext g engine t p acc).1)
    (hline : ∀ t ls acc, R acc.1 (triangleIntersectLineString ext g engine t ls acc).1)
    (triangles : List Triangle) :
    ∀ (s : RunState) (tp : List QgsGeometry),
      R s.results (triangleLoop ext g engine triangles s tp).1.results := by
  induction triangles with
  | nil => intro s tp; exact hrefl _
  | cons t rest ih =>
      intro s tp
      simp only [triangleLoop, isCanceled]
      cases hc : g.mFeedback.canceled s.polls with
      | true => simp only [if_true]; exact hrefl _
      | false =>
          simp only [Bool.false_eq_true, if_false]
          cases hx : engine.intersects (.triangle t) with
          | false =>
              simp only [Bool.not_false, if_true]
              exact ih { polls := s.polls + 1, requests := s.requests, results := s.results } tp
          | true =>
              simp only [Bool.not_true, Bool.false_eq_true, if_false]
              cases hi : engine.intersection (.triangle t) with
              | none =>
                  simp only []
                  exact ih { polls := s.polls + 1, requests := s.requests, results := s.results } tp
              | some i =>
                  simp only []
                  exact htrans _ _ _
                    (processTriangleLineIntersect_rel ext g engine R hrefl htrans hpoint hline
                      t i (s.results, tp))
                    (ih { polls := s.polls + 1, requests := s.requests,
                          results := (processTriangleLineIntersect ext g engine t i
                            (s.results, tp)).1 }
                      (processTriangleLineIntersect ext g engine t i (s.results, tp)).2)

theorem processPolygon_rel (ext : Externals) (g : Generator) (engine : QgsGeos)
    (R : QgsVectorLayerProfileResults → QgsVectorLayerProfileResults → Prop)
    (hrefl : ∀ r, R r r) (htrans : ∀ a b c, R a b → R b c → R a c)
    (hpoint : ∀ t p acc, R acc.1 (triangleIntersectPoint ext g engine t p acc).1)
    (hline : ∀ t ls acc, R acc.1 (triangleIntersectLineString ext g engine t ls acc).1)
    (polygon : QgsCurvePolygon) (s : RunState) (tp : List QgsGeometry)
    (out : RunState × List QgsGeometry)
    (h : processPolygon ext g engine polygon s tp = .ok out) :
    R s.results out.1.results := by
  cases polygon with
  | curved r => simp [processPolygon] at h
  | polygon p =>
      simp only [processPolygon, isCanceled] at h
      split at h
      · simp only [Except.ok.injEq] at h
        subst h
        exact hrefl _
      · split at h
        · simp only [Except.ok.injEq] at h
          subst h
          exact hrefl _
        · simp only [Except.ok.injEq] at h
          subst h
          exact triangleLoop_rel ext g engine R hrefl htrans hpoint hline _
            { polls := (clampAltitudesPolygon ext g p s.polls).2.2 + 1 + 1,
              requests := s.requests, results := s.results } tp

theorem polygonFeatureParts_rel (ext : Externals) (g : Generator) (engine : QgsGeos)
    (R : QgsVectorLayerProfileResults → QgsVectorLayerProfileResults → Prop)
    (hrefl : ∀ r, R r r) (htrans : ∀ a b c, R a b → R b c → R a c)
    (hpoint : ∀ t p acc, R acc.1 (triangleIntersectPoint ext g engine t p acc).1)
    (hline : ∀ t ls acc, R acc.1 (triangleIntersectLineString ext g engine t ls acc).1)
    (parts : List QgsCurvePolygon) :
    ∀ (s : RunState) (tp : List QgsGeometry) (out : RunState × List QgsGeometry),
      polygonFeatureParts ext g engine parts s tp = .ok out → R s.results out.1.results := by
  induction parts with
  | nil =>
      intro s tp out h
      simp only [polygonFeatureParts, Except.ok.injEq] at h
      subst h
      exact hrefl _
  | cons part rest ih =>
      intro s tp out h
      simp only [polygonFeatureParts, isCanceled] at h
      split at h
      · simp only [Except.ok.injEq] at h
        subst h
        exact hrefl _
      · split at h
        · exact ih { polls := s.polls + 1, requests := s.requests, results := s.results } tp out h
        · cases hp : processPolygon ext g engine part
              { polls := s.polls + 1, requests := s.requests, results := s.results } tp with
          | error e => simp [hp] at h
          | ok o =>
              simp only [hp] at h
              exact htrans _ _ _
                (processPolygon_rel ext g engine R hrefl htrans hpoint hline part
                  { polls := s.polls + 1, requests := s.requests, results := s.results } tp o hp)
                (ih o.1 o.2 out h)

theorem polygonFeatureLoop_rel (ext : Externals) (g : Generator) (engine : QgsGeos)
    (R : QgsVectorLayerProfileResults → QgsVectorLayerProfileResults → Prop)
    (hrefl : ∀ r, R r r) (htrans : ∀ a b c, R a b → R b c → R a c)
    (hpoint : ∀ t p acc, R acc.1 (triangleIntersectPoint ext g engine t p acc).1)
    (hline : ∀ t ls acc, R acc.1 (triangleIntersectLineString ext g engine t ls acc).1)
    (hdvh : ∀ r x, R r { r with distanceVHeightGeometries := r.distanceVHeightGeometries ++ [x] })
    (features : List PolygonFeature) :
    ∀ (s : RunState) (out : Bool × RunState),
      polygonFeatureLoop ext g engine features s = .ok out → R s.results out.2.results := by
  induction features with
  | nil =>
      intro s out h
      simp only [polygonFeatureLoop, Except.ok.injEq] at h
      subst h
      exact hrefl _
  | cons f rest ih =>
      intro s out h
      simp only [polygonFeatureLoop, isCanceled] at h
      cases hc : g.mFeedback.canceled s.polls with
      | true =>
          simp only [hc, if_true, Except.ok.injEq] at h
          subst h
          exact hrefl _
      | false =>
          simp only [hc, Bool.false_eq_true, if_false] at h
          cases hx : engine.intersects (.polygonFeature f) with
          | false =>
              simp only [hx, Bool.not_false, if_true] at h
              exact ih { polls := s.polls + 1, requests := s.requests, results := s.results } out h
          | true =>
              simp only [hx, Bool.not_true, Bool.false_eq_true, if_false] at h
              cases hp : (match f with
                  | .multi parts => polygonFeatureParts ext g engine parts
                      { polls := s.polls + 1, requests := s.requests, results := s.results } []
                  | .single p => processPolygon ext g engine p
                      { polls := s.polls + 1, requests := s.requests, results := s.results } []) with
              | error e => simp [hp] at h
              | ok o =>
                  simp only [hp] at h
                  have ho : R s.results o.1.results := by
                    cases f with
                    | single p =>
                        exact processPolygon_rel ext g engine R hrefl htrans hpoint hline p
                          { polls := s.polls + 1, requests := s.requests, results := s.results }
                          [] o hp
                    | multi parts =>
                        exact polygonFeatureParts_rel ext g engine R hrefl htrans hpoint hline
                          parts
                          { polls := s.polls + 1, requests := s.requests, results := s.results }
                          [] o hp
                  cases hc2 : g.mFeedback.canceled o.1.polls with
                  | true =>
                      simp only [hc2, if_true, Except.ok.injEq] at h
                      subst h
                      exact ho
                  | false =>
                      simp only [hc2, Bool.false_eq_true, if_false] at h
                      cases hempty : o.2.isEmpty with
                      | true =>
                          simp only [hempty, Bool.not_true, Bool.false_eq_true, if_false] at h
                          exact htrans _ _ _ ho
                            (ih { polls := o.1.polls + 1, requests := o.1.requests,
                                  results := o.1.results } out h)
                      | false =>
                          simp only [hempty, Bool.not_false, if_true] at h
                          refine htrans _ _ _ ho (htrans _ _ _ (hdvh o.1.results _) (ih _ out h))

/-- C11. Z range invariant, for the point, the line and the polygon builder. Over a
run (a line or polygon run that returns) and over every single recorded sample
(`processPoint`, the sample step of `processCurve`, the point branch and the vertex
loop of `processTriangleLineIntersect`) the Z range is kept: `minZ` does not
increase and `maxZ` does not decrease, and when the range covered the raw points
before, it covers them afterwards, i.e. `minZ ≤ h ≤ maxZ` for every raw point of a
height `h` that is a number and, with extrusion enabled by a height `e` that is a
number (of either sign), also `minZ ≤ h + e ≤ maxZ`. -/
theorem zRange_invariant_kept (ext : Externals) (g : Generator) (profileCurve : QgsCurve)
    (engine : QgsGeos) (s : RunState) :
    ZRangeKept g s.results (generateProfileForPoints g profileCurve engine s).2.results
      ∧ (∀ out, generateProfileForLines ext g profileCurve engine s = .ok out →
          ZRangeKept g s.results out.2.results)
      ∧ (∀ out, generateProfileForPolygons ext g profileCurve engine s = .ok out →
          ZRangeKept g s.results out.2.results)
      ∧ (∀ point r, ZRangeKept g r (processPoint g engine point r))
      ∧ (∀ sm r, ZRangeKept g r (recordSample g sm r))
      ∧ (∀ triangle p acc,
          ZRangeKept g acc.1 (triangleIntersectPoint ext g engine triangle p acc).1)
      ∧ (∀ triangle ls r v,
          ZRangeKept g r (lineStringVertexLoop ext g engine triangle ls r v).1) := by
  refine ⟨?_, ?_, ?_, ?_, recordSample_zRange g, triangleIntersectPoint_zRange ext g engine,
    fun triangle ls r v => lineStringVertexLoop_zRange ext g engine triangle ls r v⟩
  · exact pointFeatureLoop_rel g engine (ZRangeKept g) (zRangeKept_refl g) (zRangeKept_trans g)
      (recordSample_zRange g) _
      { s with requests := s.requests ++ [.distanceWithin profileCurve g.mTolerance] }
  · intro out h
    exact lineFeatureLoop_rel ext g engine (ZRangeKept g) (zRangeKept_refl g)
      (zRangeKept_trans g) (recordSample_zRange g) _
      { s with requests := s.requests ++ [.filterRect (ext.boundingBox profileCurve)] } out h
  · intro out h
    exact polygonFeatureLoop_rel ext g engine (ZRangeKept g) (zRangeKept_refl g)
      (zRangeKept_trans g) (triangleIntersectPoint_zRange ext g engine)
      (triangleIntersectLineString_zRange ext g engine)
      (fun r x => zRangeKept_of_eq g r _ rfl rfl rfl) _
      { s with requests := s.requests ++ [.filterRect (ext.boundingBox profileCurve)] } out h
  · intro point r
    rw [processPoint_eq_recordSample]
    exact recordSample_zRange g _ r

theorem fresh_zRangeCovers (g : Generator) :
    ZRangeCovers g (QgsVectorLayerProfileResults.fresh sampleExternals) :=
  ⟨1000000, -1000000, rfl, rfl, fun p hp => by
    simp [QgsVectorLayerProfileResults.fresh] at hp⟩

/-- C11, at concrete inputs: from a new results aggregate, the point run with
extrusion by -3, the line run and the polygon run over the sample layers end with a
Z range that covers their raw points. -/
theorem zRange_invariant_kept_witness :
    ((generateProfileForPoints negativeExtrusionGenerator sampleCurve sampleEngine
          sampleRunState).2.results.rawPoints.length = 3
        ∧ ZRangeCovers negativeExtrusionGenerator
          (generateProfileForPoints negativeExtrusionGenerator sampleCurve sampleEngine
            sampleRunState).2.results)
      ∧ (∃ out, generateProfileForLines crossingExternals lineLayerGenerator sampleCurve
            crossingEngine sampleRunState = .ok out
          ∧ out.2.results.rawPoints.length = 1
          ∧ ZRangeCovers lineLayerGenerator out.2.results)
      ∧ ∃ out, generateProfileForPolygons triangleExternals polygonRunGenerator sampleCurve
            crossingEngine sampleRunState = .ok out
          ∧ out.2.results.rawPoints.length = 1
          ∧ ZRangeCovers polygonRunGenerator out.2.results :=
  ⟨⟨rfl, (zRange_invariant_kept sampleExternals negativeExtrusionGenerator sampleCurve
      sampleEngine sampleRunState).1.2 (fresh_zRangeCovers _)⟩,
   ⟨_, rfl, rfl, ((zRange_invariant_kept crossingExternals lineLayerGenerator sampleCurve
      crossingEngine sampleRunState).2.1 _ rfl).2 (fresh_zRangeCovers _)⟩,
   ⟨_, rfl, rfl, ((zRange_invariant_kept triangleExternals polygonRunGenerator sampleCurve
      crossingEngine sampleRunState).2.2.1 _ rfl).2 (fresh_zRangeCovers _)⟩⟩

/-! ## Geometries of a point sample -/

/-- C12. For a point part (x, y, z) that `processPoint` handles, with the resolved
height `h = featureZToHeight( x, y, z )` and the located distance `d`: the raw point
(x, y, h) is appended; with extrusion enabled the appended 3D geometry is the
segment from (x, y, h) to (x, y, h + extrusionHeight) and the appended
distance-height geometry the segment from (d, h) to (d, h + extrusionHeight); with
extrusion disabled they are the points (x, y, h) and (d, h). -/
theorem processPoint_geometries (g : Generator) (engine : QgsGeos) (point : QgsPoint)
    (r : QgsVectorLayerProfileResults) :
    (processPoint g engine point r).rawPoints
        = r.rawPoints ++
          [QgsPoint.mk point.x point.y (featureZToHeight g point.x point.y point.z)]
      ∧ (g.mExtrusionEnabled = true →
          (processPoint g engine point r).geometries
              = r.geometries ++ [some (QgsAbstractGeometry.lineString
                  [QgsPoint.mk point.x point.y (featureZToHeight g point.x point.y point.z),
                   QgsPoint.mk point.x point.y
                    (Dbl.add (featureZToHeight g point.x point.y point.z) g.mExtrusionHeight)])]
            ∧ (processPoint g engine point r).distanceVHeightGeometries
              = r.distanceVHeightGeometries ++ [some (QgsAbstractGeometry.lineString
                  [QgsPoint.xy (engine.lineLocatePoint point).distance
                    (featureZToHeight g point.x point.y point.z),
                   QgsPoint.xy (engine.lineLocatePoint point).distance
                    (Dbl.add (featureZToHeight g point.x point.y point.z) g.mExtrusionHeight)])])
      ∧ (g.mExtrusionEnabled = false →
          (processPoint g engine point r).geometries
              = r.geometries ++ [some (QgsAbstractGeometry.point
                  (QgsPoint.mk point.x point.y (featureZToHeight g point.x point.y point.z)))]
            ∧ (processPoint g engine point r).distanceVHeightGeometries
              = r.distanceVHeightGeometries ++ [some (QgsAbstractGeometry.point
                  (QgsPoint.xy (engine.lineLocatePoint point).distance
                    (featureZToHeight g point.x point.y point.z)))]) := by
  unfold processPoint
  refine ⟨?_, ?_, ?_⟩
  · cases he : g.mExtrusionEnabled <;> simp
  · intro he
    simp [he]
  · intro he
    simp [he]

/-- C12, at the input of the specification: the point (10, 20, 5) under Absolute
clamping, scale 1, offset 0 and extrusion by 3 gives the raw height 5, the segment
(10, 20, 5)-(10, 20, 8) and, located at distance 10, the segment (10, 5)-(10, 8). -/
theorem processPoint_geometries_witness :
    (processPoint extrudedAbsoluteGenerator sampleEngine ⟨some 10, some 20, some 5⟩
        (QgsVectorLayerProfileResults.fresh sampleExternals)).rawPoints
        = [⟨some 10, some 20, some 5⟩]
      ∧ (processPoint extrudedAbsoluteGenerator sampleEngine ⟨some 10, some 20, some 5⟩
          (QgsVectorLayerProfileResults.fresh sampleExternals)).geometries
        = [some (QgsAbstractGeometry.lineString
            [⟨some 10, some 20, some 5⟩, ⟨some 10, some 20, some 8⟩])]
      ∧ (processPoint extrudedAbsoluteGenerator sampleEngine ⟨some 10, some 20, some 5⟩
          (QgsVectorLayerProfileResults.fresh sampleExternals)).distanceVHeightGeometries
        = [some (QgsAbstractGeometry.lineString
            [QgsPoint.xy (some 10) (some 5), QgsPoint.xy (some 10) (some 8)])] := by
  have h5 : featureZToHeight extrudedAbsoluteGenerator (some 10) (some 20) (some 5) = some 5 := by
    simp [featureZToHeight, extrudedAbsoluteGenerator, sampleGenerator, Dbl.add, Dbl.mul]
  have h8 : Dbl.add (some 5) extrudedAbsoluteGenerator.mExtrusionHeight = some 8 := by
    norm_num [extrudedAbsoluteGenerator, Dbl.add]
  obtain ⟨hraw, hext, _⟩ := processPoint_geometries extrudedAbsoluteGenerator sampleEngine
    ⟨some 10, some 20, some 5⟩ (QgsVectorLayerProfileResults.fresh sampleExternals)
  obtain ⟨hgeo, hdvh⟩ := hext rfl
  simp only [h5, h8] at hraw hgeo hdvh
  exact ⟨hraw, hgeo, hdvh⟩

/-! ## Errors of `lineLocatePoint` -/

theorem pointFeatureLoop_true_polls (g : Generator) (engine : QgsGeos)
    (features : List PointFeature) :
    ∀ s : RunState, (pointFeatureLoop g engine features s).1 = true →
      ∀ k, s.polls ≤ k → k < (pointFeatureLoop g engine features s).2.polls →
        g.mFeedback.canceled k = false := by
  induction features with
  | nil =>
      intro s _ k h1 h2
      simp only [pointFeatureLoop] at h2
      omega
  | cons f rest ih =>
      intro s hb k h1 h2
      cases hc : g.mFeedback.canceled s.polls with
      | true => simp [pointFeatureLoop, isCanceled, hc] at hb
      | false =>
          simp only [pointFeatureLoop, isCanceled, hc, Bool.false_eq_true, if_false] at hb h2
          by_cases hk : k = s.polls
          · rw [hk]; exact hc
          · exact ih _ hb k (by simp; omega) h2

theorem polygonFeatureLoop_true_polls (ext : Externals) (g : Generator) (engine : QgsGeos)
    (hmono : ∀ j k, j ≤ k → g.mFeedback.canceled j = true → g.mFeedback.canceled k = true)
    (features : List PolygonFeature) :
    ∀ s s1 : RunState, polygonFeatureLoop ext g engine features s = .ok (true, s1) →
      ∀ k, k < s1.polls → s.polls ≤ k → g.mFeedback.canceled k = false := by
  have hbelow : ∀ n, g.mFeedback.canceled n = false → ∀ k, k ≤ n →
      g.mFeedback.canceled k = false := by
    intro n hn k hk
    cases hck : g.mFeedback.canceled k with
    | false => rfl
    | true =>
        have := hmono k n hk hck
        simp [hn] at this
  induction features with
  | nil =>
      intro s s1 h k h1 h2
      simp only [polygonFeatureLoop, Except.ok.injEq, Prod.mk.injEq, true_and] at h
      subst h
      omega
  | cons f rest ih =>
      intro s s1 h k h1 h2
      simp only [polygonFeatureLoop, isCanceled] at h
      cases hc : g.mFeedback.canceled s.polls with
      | true => simp [hc] at h
      | false =>
          simp only [hc, Bool.false_eq_true, if_false] at h
          cases hx : engine.intersects (.polygonFeature f) with
          | false =>
              simp only [hx, Bool.not_false, if_true] at h
              by_cases hk : k ≤ s.polls
              · exact hbelow _ hc k hk
              · exact ih { polls := s.polls + 1, requests := s.requests, results := s.results }
                  s1 h k h1 (by simp; omega)
          | true =>
              simp only [hx, Bool.not_true, Bool.false_eq_true, if_false] at h
              cases hp : (match f with
                  | .multi parts => polygonFeatureParts ext g engine parts
                      { polls := s.polls + 1, requests := s.requests, results := s.results } []
                  | .single p => processPolygon ext g engine p
                      { polls := s.polls + 1, requests := s.requests, results := s.results } []) with
              | error e => simp [hp] at h
              | ok o =>
                  simp only [hp] at h
                  cases hc2 : g.mFeedback.canceled o.1.polls with
                  | true => simp [hc2] at h
                  | false =>
                      simp only [hc2, Bool.false_eq_true, if_false] at h
                      by_cases hk : k ≤ o.1.polls
                      · exact hbelow _ hc2 k hk
                      · split at h
                        · exact ih _ s1 h k h1 (by simp; omega)
                        · exact ih _ s1 h k h1 (by simp; omega)

/-- C14. On the line layer with one feature, with cancellation requested from poll
number 4 on (it stays set), the poll at the start of `processCurve` observes the
flag while the last delivered feature is processed; `generateProfileForLines()` and
`generateProfile()` nevertheless return true, after five polls and without a
recorded sample. -/
theorem line_run_returns_true_after_cancellation :
    lineCanceledGenerator.mFeedback.canceled 4 = true
      ∧ (∀ k, 4 ≤ k → lineCanceledGenerator.mFeedback.canceled k = true)
      ∧ ∃ g1, generateProfile crossingExternals lineCanceledGenerator = .ok (true, g1)
          ∧ g1.polls = 5
          ∧ g1.mResults = some (QgsVectorLayerProfileResults.fresh crossingExternals) :=
  ⟨rfl, fun k hk => by simp [lineCanceledGenerator, canceledFrom, hk], _, rfl, rfl, rfl⟩

/-! ## Curved polygons -/

/-- C15. For a polygon part that is not a `QgsPolygon`, `processPolygon` calls
`segmentize()` through the null pointer of the failed cast: every call on a curved
polygon ends in a null dereference, and so does `generateProfile()` on a polygon
layer whose one feature is a curved polygon that intersects the profile curve. -/
theorem processPolygon_curved_null_dereference :
    (∀ (ext : Externals) (g : Generator) (engine : QgsGeos) (rings : QgsPolygon)
        (s : RunState) (transformedParts : List QgsGeometry),
        processPolygon ext g engine (QgsCurvePolygon.curved rings) s transformedParts
          = .error Fault.nullDereference)
      ∧ generateProfile triangleExternals curvedPolygonGenerator
          = .error Fault.nullDereference :=
  ⟨fun _ _ _ _ _ _ => rfl, rfl⟩

/-! ## Ribbons -/

theorem baseVertex_map (ext : Externals) (triangle : Triangle) (l : List QgsPoint) :
    l.map (fun v => QgsPoint.mk v.x v.y (baseVertex ext triangle v).z)
      = l.map (baseVertex ext triangle) := rfl

end QgsProfile
